import Mathlib

/-!
Verification development for the Mental Math Trainer (single Python file
`main_mental_maths_approximation.py`).

The program is embedded shallowly:

* Python floats are modelled as exact rationals `ℚ` (reals `ℝ` where the
  source calls the transcendental library functions `math.sqrt` / `math.log`).
* Python's builtin `round` (round-half-to-even, optionally to `n` decimal
  digits) is modelled by `rnd2even` / `pyRound`.
* The global random source is modelled by explicit seed arguments: each call
  to `random.randint`, `random.random`, `random.uniform`, `random.choice`
  consumes one natural-number seed, and `random.shuffle` is modelled as a
  seed-dependent permutation (a rotation).  Loops that repeatedly draw random
  numbers consume a list of seeds and stop when the list is exhausted, which
  models an arbitrary finite prefix of the real infinite draw sequence.
* The interactive session loops are modelled as functions over a script of
  per-iteration inputs (elapsed clock value at the top of the iteration,
  random seeds for the question and the options, and the user's reply).
* Prompt f-strings are embedded structurally: a prompt is a small record of
  the displayed operands rather than the rendered character string.
-/

namespace MentalMaths

/-- The three difficulty tiers (`"easy"`, `"medium"`, `"hard"`). -/
inductive Difficulty
  | easy
  | medium
  | hard
deriving DecidableEq

/-- Python's builtin `round(x)`: round half to even, to an integer. -/
def rnd2even {α : Type} [LinearOrderedField α] [FloorRing α] (x : α) : ℤ :=
  if x - ⌊x⌋ < 1/2 then ⌊x⌋
  else if 1/2 < x - ⌊x⌋ then ⌊x⌋ + 1
  else if ⌊x⌋ % 2 = 0 then ⌊x⌋ else ⌊x⌋ + 1

/-- Python's `round(x, n)`: round half to even at `n` decimal digits. -/
def pyRound {α : Type} [LinearOrderedField α] [FloorRing α] (x : α) (n : ℕ) : α :=
  ((rnd2even (x * 10 ^ n) : ℤ) : α) / 10 ^ n

/-- `round_to_difficulty(value, difficulty)`: 1/2/3 decimal digits for
easy/medium/hard. -/
def round_to_difficulty {α : Type} [LinearOrderedField α] [FloorRing α]
    (value : α) (d : Difficulty) : α :=
  if d = .easy then pyRound value 1
  else if d = .medium then pyRound value 2
  else pyRound value 3

/-- `is_integer(x)`: `abs(x - round(x)) < 1e-9`. -/
def is_integer (x : ℚ) : Bool :=
  |x - ((rnd2even x : ℤ) : ℚ)| < 1/1000000000

/-- Python's `int(x)` on a float: truncation toward zero. -/
def pytrunc (q : ℚ) : ℤ :=
  if 0 ≤ q then ⌊q⌋ else -⌊-q⌋

/-- Model of `random.randint(lo, hi)`: an arbitrary value of `[lo, hi]`,
selected by the seed `s`. -/
def randint (lo hi : ℤ) (s : ℕ) : ℤ :=
  lo + ((s % (hi - lo + 1).toNat : ℕ) : ℤ)

/-- Model of `random.random()`: an arbitrary rational of `[0, 1)` with
six-digit resolution, selected by the seed `s`. -/
def unif (s : ℕ) : ℚ :=
  ((s % 1000000 : ℕ) : ℚ) / 1000000

/-- Model of `random.uniform(lo, hi)`. -/
def uniform (lo hi : ℚ) (s : ℕ) : ℚ :=
  lo + (hi - lo) * unif s

/-- Model of `random.choice(l)`: an arbitrary member of `l`, selected by the
seed `s` (with a default for the impossible empty case). -/
def pychoice {α : Type} (l : List α) (s : ℕ) (dflt : α) : α :=
  l.getD (s % l.length) dflt

/-- Model of `random.shuffle`: a seed-dependent permutation of the list. -/
def pyShuffle {α : Type} (l : List α) (s : ℕ) : List α :=
  l.rotate s

/-- The `while len(opts) < n` loop of `generate_integer_distractors` (`n = 4`):
draw `delta = random.randint(-magnitude, magnitude)`, reject `delta = 0`,
insert `correct + delta` into the set (modelled as a duplicate-free list). -/
def int_distractor_loop (correct magnitude : ℤ) : List ℕ → List ℤ → List ℤ
  | [], opts => opts
  | s :: rest, opts =>
    if 4 ≤ opts.length then opts
    else
      let delta := randint (-magnitude) magnitude s
      if delta = 0 then int_distractor_loop correct magnitude rest opts
      else if correct + delta ∈ opts then int_distractor_loop correct magnitude rest opts
      else int_distractor_loop correct magnitude rest (opts ++ [correct + delta])

/-- `generate_integer_distractors(correct)`: MCQ options for integer answers,
`magnitude = max(5, abs(correct) // 5)`, set seeded with `correct`,
shuffled at the end. -/
def generate_integer_distractors (correct : ℤ) (seeds : List ℕ) (shuffleSeed : ℕ) : List ℤ :=
  pyShuffle (int_distractor_loop correct (max 5 (|correct| / 5)) seeds [correct]) shuffleSeed

/-- The dict `{"easy": 1, "medium": 2, "hard": 3}` of decimal depths. -/
def decimalsFor : Difficulty → ℕ
  | .easy => 1
  | .medium => 2
  | .hard => 3

/-- The `while len(opts) < n` loop of `generate_decimal_distractors`:
`noise = (random.random() - 0.5) * spread`, insert
`round(correct + noise, decimals)` into the set. -/
def dec_distractor_loop (correct : ℚ) (decimals : ℕ) (spread : ℚ) :
    List ℕ → List ℚ → List ℚ
  | [], opts => opts
  | s :: rest, opts =>
    if 4 ≤ opts.length then opts
    else
      let noise := (unif s - 1/2) * spread
      let cand := pyRound (correct + noise) decimals
      if cand ∈ opts then dec_distractor_loop correct decimals spread rest opts
      else dec_distractor_loop correct decimals spread rest (opts ++ [cand])

/-- `generate_decimal_distractors(correct, difficulty)`: decimal depth from
`decimalsFor`, `spread = abs(correct) * 0.15 + 0.1`, set seeded with
`round(correct, decimals)`, shuffled at the end. -/
def generate_decimal_distractors (correct : ℚ) (d : Difficulty)
    (seeds : List ℕ) (shuffleSeed : ℕ) : List ℚ :=
  pyShuffle
    (dec_distractor_loop correct (decimalsFor d) (|correct| * (15/100) + 1/10) seeds
      [pyRound correct (decimalsFor d)])
    shuffleSeed

/-- `mcq_options(correct, difficulty)`: integer branch (with `int(correct)`)
when `is_integer(correct)`, decimal branch otherwise. -/
def mcq_options (correct : ℚ) (d : Difficulty) (seeds : List ℕ) (shuffleSeed : ℕ) :
    List ℚ :=
  if is_integer correct then
    (generate_integer_distractors (pytrunc correct) seeds shuffleSeed).map
      (fun z => ((z : ℤ) : ℚ))
  else
    generate_decimal_distractors correct d seeds shuffleSeed

/-- The operation displayed by an arithmetic prompt. -/
inductive ArithOp
  | add
  | sub
  | mul
  | div
  | dec
  | square
  | cube
deriving DecidableEq

/-- Structural embedding of an arithmetic prompt f-string: the operation and
the displayed operand values (`b = a` for the unary square/cube prompts). -/
structure ArithQ where
  op : ArithOp
  a : ℚ
  b : ℚ
deriving DecidableEq

/-- The exact arithmetic value of the operands shown in a prompt. -/
def ArithQ.exact (q : ArithQ) : ℚ :=
  match q.op with
  | .add => q.a + q.b
  | .sub => q.a - q.b
  | .mul => q.a * q.b
  | .div => q.a / q.b
  | .dec => q.a * q.b
  | .square => q.a * q.a
  | .cube => q.a * q.a * q.a

/-- `gen_add`. -/
def gen_add (d : Difficulty) (s1 s2 : ℕ) : ArithQ × ℚ :=
  match d with
  | .easy =>
    let a := randint 20 200 s1
    let b := randint 20 200 s2
    (⟨.add, (a : ℚ), (b : ℚ)⟩, ((a + b : ℤ) : ℚ))
  | .medium =>
    let a := randint 100 900 s1
    let b := randint 100 900 s2
    (⟨.add, (a : ℚ), (b : ℚ)⟩, ((a + b : ℤ) : ℚ))
  | .hard =>
    let a := randint 1000 9999 s1
    let b := randint 1000 9999 s2
    (⟨.add, (a : ℚ), (b : ℚ)⟩, ((a + b : ℤ) : ℚ))

/-- `gen_sub`. -/
def gen_sub (d : Difficulty) (s1 s2 : ℕ) : ArithQ × ℚ :=
  match d with
  | .easy =>
    let a := randint 50 300 s1
    let b := randint 10 200 s2
    (⟨.sub, (a : ℚ), (b : ℚ)⟩, ((a - b : ℤ) : ℚ))
  | .medium =>
    let a := randint 500 2000 s1
    let b := randint 200 1500 s2
    (⟨.sub, (a : ℚ), (b : ℚ)⟩, ((a - b : ℤ) : ℚ))
  | .hard =>
    let a := randint 2000 9999 s1
    let b := randint 500 9000 s2
    (⟨.sub, (a : ℚ), (b : ℚ)⟩, ((a - b : ℤ) : ℚ))

/-- `gen_mul`. -/
def gen_mul (d : Difficulty) (s1 s2 : ℕ) : ArithQ × ℚ :=
  match d with
  | .easy =>
    let a := randint 10 80 s1
    let b := randint 2 9 s2
    (⟨.mul, (a : ℚ), (b : ℚ)⟩, ((a * b : ℤ) : ℚ))
  | .medium =>
    let a := randint 20 99 s1
    let b := randint 10 99 s2
    (⟨.mul, (a : ℚ), (b : ℚ)⟩, ((a * b : ℤ) : ℚ))
  | .hard =>
    let a := randint 100 999 s1
    let b := randint 10 99 s2
    (⟨.mul, (a : ℚ), (b : ℚ)⟩, ((a * b : ℤ) : ℚ))

/-- `gen_div`. -/
def gen_div (d : Difficulty) (s1 s2 : ℕ) : ArithQ × ℚ :=
  match d with
  | .easy =>
    let b := pychoice [(2 : ℤ), 4, 5, 8] s1 2
    let a := b * randint 2 50 s2
    (⟨.div, (a : ℚ), (b : ℚ)⟩, (a : ℚ) / (b : ℚ))
  | .medium =>
    let b := randint 2 40 s1
    let a := randint 50 800 s2
    (⟨.div, (a : ℚ), (b : ℚ)⟩, round_to_difficulty ((a : ℚ) / (b : ℚ)) .medium)
  | .hard =>
    let b := randint 3 90 s1
    let a := randint 100 4000 s2
    (⟨.div, (a : ℚ), (b : ℚ)⟩, round_to_difficulty ((a : ℚ) / (b : ℚ)) .hard)

/-- `gen_decimal`: decimal multiplication `dec × n`. -/
def gen_decimal (d : Difficulty) (s1 s2 : ℕ) : ArithQ × ℚ :=
  match d with
  | .easy =>
    let dec := pychoice [(1/10 : ℚ), 2/10, 25/100, 5/10, 75/100] s1 (1/10)
    let n := randint 20 500 s2
    (⟨.dec, dec, (n : ℚ)⟩, round_to_difficulty (dec * (n : ℚ)) .easy)
  | .medium =>
    let dec := pychoice [(1/10 : ℚ), 2/10, 25/100, 33/100, 5/10, 66/100, 75/100] s1 (1/10)
    let n := randint 50 2000 s2
    (⟨.dec, dec, (n : ℚ)⟩, round_to_difficulty (dec * (n : ℚ)) .medium)
  | .hard =>
    let dec := pyRound (uniform (1/1000) (9/10) s1) 3
    let n := randint 200 20000 s2
    (⟨.dec, dec, (n : ℚ)⟩, round_to_difficulty (dec * (n : ℚ)) .hard)

/-- `gen_square` (the second seed is unused by the source). -/
def gen_square (d : Difficulty) (s1 _s2 : ℕ) : ArithQ × ℚ :=
  match d with
  | .easy =>
    let n := randint 5 20 s1
    (⟨.square, (n : ℚ), (n : ℚ)⟩, ((n * n : ℤ) : ℚ))
  | .medium =>
    let n := randint 20 50 s1
    (⟨.square, (n : ℚ), (n : ℚ)⟩, ((n * n : ℤ) : ℚ))
  | .hard =>
    let n := randint 40 120 s1
    (⟨.square, (n : ℚ), (n : ℚ)⟩, ((n * n : ℤ) : ℚ))

/-- `gen_cube` (the second seed is unused by the source). -/
def gen_cube (d : Difficulty) (s1 _s2 : ℕ) : ArithQ × ℚ :=
  match d with
  | .easy =>
    let n := randint 2 6 s1
    (⟨.cube, (n : ℚ), (n : ℚ)⟩, ((n * n * n : ℤ) : ℚ))
  | .medium =>
    let n := randint 5 12 s1
    (⟨.cube, (n : ℚ), (n : ℚ)⟩, ((n * n * n : ℤ) : ℚ))
  | .hard =>
    let n := randint 8 20 s1
    (⟨.cube, (n : ℚ), (n : ℚ)⟩, ((n * n * n : ℤ) : ℚ))

/-- The `ARITH` topic table, in source order; `random.choice(list(ARITH.keys()))`
followed by the dict lookup is modelled by `pychoice` over this list. -/
def ARITH : List (Difficulty → ℕ → ℕ → ArithQ × ℚ) :=
  [gen_add, gen_sub, gen_mul, gen_div, gen_decimal, gen_square, gen_cube]

/-- Structural embedding of the sqrt prompt `Approximate √x (±tol)`. -/
structure SqrtQ where
  x : ℤ
  tol : ℚ
deriving DecidableEq

/-- `gen_sqrt`: returns the prompt data and the `(math.sqrt(x), tol)` pair. -/
noncomputable def gen_sqrt (d : Difficulty) (s : ℕ) : SqrtQ × (ℝ × ℚ) :=
  match d with
  | .easy =>
    let x := randint 5 200 s
    (⟨x, 5/100⟩, (Real.sqrt (x : ℝ), 5/100))
  | .medium =>
    let x := randint 100 500 s
    (⟨x, 3/100⟩, (Real.sqrt (x : ℝ), 3/100))
  | .hard =>
    let x := randint 300 2000 s
    (⟨x, 2/100⟩, (Real.sqrt (x : ℝ), 2/100))

/-- Structural embedding of the prompt `Approximate ln(1 + x)` of `gen_ln`. -/
structure LnQ where
  x : ℚ
deriving DecidableEq

/-- `gen_ln`: `x = round(random.uniform(0.01, 0.5), 3)`; Taylor approximation
of order 1/2/3 by difficulty, rounded per difficulty. -/
def gen_ln (d : Difficulty) (s : ℕ) : LnQ × ℚ :=
  let x := pyRound (uniform (1/100) (1/2) s) 3
  let approx :=
    match d with
    | .easy => x
    | .medium => x - x ^ 2 / 2
    | .hard => x - x ^ 2 / 2 + x ^ 3 / 3
  (⟨x⟩, round_to_difficulty approx d)

/-- Structural embedding of the prompt `Approximate ln(1 + r)` of `gen_logret`. -/
structure LogretQ where
  r : ℚ
deriving DecidableEq

/-- The draw `r = round(random.uniform(-0.2, 0.2), 3)` of `gen_logret`. -/
def logret_r (s : ℕ) : ℚ :=
  pyRound (uniform (-(1/5)) (1/5) s) 3

/-- `gen_logret`: easy/medium are Taylor approximations of `ln(1+r)`, hard is
the exact `math.log(1+r)`; result rounded per difficulty. -/
noncomputable def gen_logret (d : Difficulty) (s : ℕ) : LogretQ × ℝ :=
  let r := logret_r s
  let t := Real.log (1 + (r : ℝ))
  let approx : ℝ :=
    match d with
    | .easy => (r : ℝ)
    | .medium => (r : ℝ) - (r : ℝ) ^ 2 / 2
    | .hard => t
  (⟨r⟩, round_to_difficulty approx d)

open Classical in
/-- The sqrt branch of `run_approximations`: the score update
`if abs(u - true) <= tol: score += 1`. -/
noncomputable def sqrt_score_update (val : ℝ × ℚ) (u : ℝ) (score : ℕ) : ℕ :=
  if |u - val.1| ≤ ((val.2 : ℚ) : ℝ) then score + 1 else score

/-- Structural embedding of the four probability prompt f-strings. -/
inductive ProbQ
  | coin (k n : ℤ)
  | urn (r b : ℤ)
  | interval (lo hi : ℚ)
  | cond (a b : ℤ)
deriving DecidableEq

/-- `gen_prob(d)`: four equally likely sub-modes; the difficulty argument is
never consulted.  The seed `m` selects the sub-mode, `s1`/`s2` feed the two
draws of the selected branch. -/
def gen_prob (d : Difficulty) (m s1 s2 : ℕ) : ProbQ × ℚ :=
  let mode := pychoice [ "coin", "urn", "interval", "cond" ] m "coin"
  if mode = "coin" then
    let n := randint 3 10 s1
    let k := randint 0 n s2
    (.coin k n, pyRound ((1/2 : ℚ) ^ n.toNat) 5)
  else if mode = "urn" then
    let r := randint 3 15 s1
    let b := randint 3 15 s2
    (.urn r b, pyRound ((r : ℚ) / ((r : ℚ) + (b : ℚ))) 4)
  else if mode = "interval" then
    let a := unif s1
    let b := unif s2
    let lo := min a b
    let hi := max a b
    (.interval lo hi, pyRound (hi - lo) 4)
  else
    let a := randint 1 9 s1
    let b := randint 1 9 s2
    (.cond a b, pyRound ((a : ℚ) / ((a : ℚ) + (b : ℚ))) 4)

/-- One scripted reply to a classic-mode free-text question: the quit token,
a string that fails `float(...)` parsing, or a parsed number. -/
inductive ClassicInput
  | quit
  | invalid
  | num (u : ℚ)
deriving DecidableEq

/-- One scripted iteration of the classic loop: seeds for the topic choice and
the question draws, and the user's reply. -/
structure ClassicStep where
  topicSeed : ℕ
  s1 : ℕ
  s2 : ℕ
  user : ClassicInput
deriving DecidableEq

/-- Per-question feedback printed by the classic loop. -/
inductive Feedback
  | correct
  | wrong (ans : ℚ)
  | invalid
deriving DecidableEq

/-- The question loop of `run_classic`: generate a question, read the reply,
break on the quit token, print `Invalid.` and continue on a parse failure,
otherwise score by `abs(u - ans) < 1e-6`.  Returns the final score and the
feedback lines in order. -/
def run_classic (d : Difficulty) : List ClassicStep → ℕ → ℕ × List Feedback
  | [], score => (score, [])
  | st :: rest, score =>
    let ans := ((pychoice ARITH st.topicSeed gen_add) d st.s1 st.s2).2
    match st.user with
    | .quit => (score, [])
    | .invalid =>
      let r := run_classic d rest score
      (r.1, Feedback.invalid :: r.2)
    | .num u =>
      if |u - ans| < 1/1000000 then
        let r := run_classic d rest (score + 1)
        (r.1, Feedback.correct :: r.2)
      else
        let r := run_classic d rest score
        (r.1, Feedback.wrong ans :: r.2)

/-- The user's reply to an 80-in-8 multiple-choice question: an option index
or the quit token. -/
inductive MCQChoice
  | pick (c : Fin 4)
  | quit
deriving DecidableEq

/-- One scripted iteration of the 80-in-8 loop: the elapsed clock value
`time.time() - t0` observed at the top of the iteration, the random seeds of
the iteration, and the user's choice. -/
structure EightyStep where
  elapsed : ℚ
  topicSeed : ℕ
  s1 : ℕ
  s2 : ℕ
  optSeeds : List ℕ
  shuffleSeed : ℕ
  choice : MCQChoice

/-- The outcome of an 80-in-8 run: final score, the loop index `i` printed in
the summary denominators, the number of questions actually answered, whether
the time-up notice was printed, and whether the run aborted with an uncaught
exception (the `opts.index(ans)` lookup or an out-of-range option index). -/
structure EightyResult where
  score : ℕ
  denom : ℕ
  answered : ℕ
  timeUp : Bool
  err : Bool
deriving DecidableEq

/-- The `for i in range(1, 81)` loop of `run_eighty`: deadline check at the
top of each iteration (`time.time() - t0 > 480`), question + MCQ options,
quit breaks, scoring by `abs(opts[choice-1] - ans) < 1e-9`; the source also
evaluates `opts[opts.index(ans)]`, which raises if `ans` is not an exact
member of `opts`. -/
def eightyGo (d : Difficulty) (steps : ℕ → EightyStep) :
    ℕ → ℕ → ℕ → ℕ → EightyResult
  | 0, _, score, answered => ⟨score, 80, answered, false, false⟩
  | rem + 1, i, score, answered =>
    let st := steps i
    if 480 < st.elapsed then ⟨score, i, answered, true, false⟩
    else
      let ans := ((pychoice ARITH st.topicSeed gen_add) d st.s1 st.s2).2
      let opts := mcq_options ans d st.optSeeds st.shuffleSeed
      match st.choice with
      | .quit => ⟨score, i, answered, false, false⟩
      | .pick c =>
        if ans ∈ opts ∧ c.val < opts.length then
          if |opts.getD c.val 0 - ans| < 1/1000000000 then
            eightyGo d steps rem (i + 1) (score + 1) (answered + 1)
          else
            eightyGo d steps rem (i + 1) score (answered + 1)
        else ⟨score, i, answered, false, true⟩

/-- `run_eighty`: the loop starting at question 1 with score 0. -/
def run_eighty (d : Difficulty) (steps : ℕ → EightyStep) : EightyResult :=
  eightyGo d steps 80 1 0 0

/-- A step of the 80-in-8 loop that neither quits nor raises: the choice is an
in-range option index and the correct answer is an exact member of the
displayed options. -/
def eighty_step_ok (d : Difficulty) (st : EightyStep) : Bool :=
  match st.choice with
  | .quit => false
  | .pick c =>
    let ans := ((pychoice ARITH st.topicSeed gen_add) d st.s1 st.s2).2
    let opts := mcq_options ans d st.optSeeds st.shuffleSeed
    decide (ans ∈ opts) && decide (c.val < opts.length)

/-- A concrete 80-in-8 script: the simulated clock passes 480 s at the top of
iteration 5, every earlier reply picks option 1. -/
def exSteps (j : ℕ) : EightyStep :=
  ⟨if j < 5 then (j : ℚ) else 481, 0, 0, 0, [0, 1, 2], 0, .pick 0⟩

end MentalMaths

namespace MentalMaths

variable {α : Type} [LinearOrderedField α] [FloorRing α]

theorem randint_mem (lo hi : ℤ) (s : ℕ) (h : lo ≤ hi) :
    lo ≤ randint lo hi s ∧ randint lo hi s ≤ hi := by
  have hpos : 0 < (hi - lo + 1).toNat := by omega
  have hlt : s % (hi - lo + 1).toNat < (hi - lo + 1).toNat := Nat.mod_lt _ hpos
  unfold randint
  omega

theorem unif_mem (s : ℕ) : 0 ≤ unif s ∧ unif s < 1 := by
  unfold unif
  constructor
  · positivity
  · rw [div_lt_one (by norm_num)]
    have h : s % 1000000 < 1000000 := Nat.mod_lt _ (by norm_num)
    exact_mod_cast h

theorem pychoice_mem {β : Type} (l : List β) (s : ℕ) (dflt : β) (h : l ≠ []) :
    pychoice l s dflt ∈ l := by
  unfold pychoice
  have hl : 0 < l.length := List.length_pos.mpr h
  have hlt : s % l.length < l.length := Nat.mod_lt _ hl
  rw [List.getD_eq_getElem l dflt hlt]
  exact List.getElem_mem hlt

theorem rnd2even_intCast (z : ℤ) : rnd2even ((z : α)) = z := by
  have h : ((z : α)) - ⌊((z : α))⌋ < 1/2 := by
    rw [Int.floor_intCast, sub_self]
    norm_num
  unfold rnd2even
  rw [if_pos h, Int.floor_intCast]

theorem floor_le_rnd2even (x : α) : ⌊x⌋ ≤ rnd2even x := by
  unfold rnd2even
  split
  · exact le_refl _
  · split
    · omega
    · split
      · exact le_refl _
      · omega

theorem rnd2even_le_floor_add_one (x : α) : rnd2even x ≤ ⌊x⌋ + 1 := by
  unfold rnd2even
  split
  · omega
  · split
    · exact le_refl _
    · split
      · omega
      · exact le_refl _

theorem rnd2even_eq_of_lt (n : ℤ) (x : α) (h1 : ((n : α)) - 1/2 < x) (h2 : x < ((n : α)) + 1/2) :
    rnd2even x = n := by
  rcases le_or_lt ((n : α)) x with h | h
  · have hf : ⌊x⌋ = n := by
      rw [Int.floor_eq_iff]
      exact ⟨h, by push_cast; linarith⟩
    unfold rnd2even
    rw [hf, if_pos (by linarith)]
  · have hf : ⌊x⌋ = n - 1 := by
      rw [Int.floor_eq_iff]
      constructor
      · push_cast; linarith
      · push_cast; linarith
    have hgt : (1/2 : α) < x - ((n - 1 : ℤ) : α) := by push_cast; linarith
    unfold rnd2even
    rw [hf, if_neg (by push_cast; intro hc; linarith), if_pos hgt]
    omega

theorem pyRound_int_div (z : ℤ) (n : ℕ) :
    pyRound (((z : α)) / 10 ^ n) n = ((z : α)) / 10 ^ n := by
  unfold pyRound
  rw [div_mul_cancel₀ _ (by positivity : ((10 : α)) ^ n ≠ 0), rnd2even_intCast]

theorem pyRound_rep (x : α) (n : ℕ) : ∃ z : ℤ, pyRound x n = ((z : α)) / 10 ^ n :=
  ⟨rnd2even (x * 10 ^ n), rfl⟩

theorem pyRound_idem (x : α) (n : ℕ) : pyRound (pyRound x n) n = pyRound x n := by
  have h : pyRound x n = ((rnd2even (x * 10 ^ n) : ℤ) : α) / 10 ^ n := rfl
  rw [h, pyRound_int_div]

theorem one_le_abs_intCast_sub (z w : ℤ) (hzw : z ≠ w) :
    (1 : α) ≤ |((z : α)) - ((w : α))| := by
  have h1 : (1 : ℤ) ≤ |z - w| := Int.one_le_abs (sub_ne_zero.mpr hzw)
  have h2 : ((1 : ℤ) : α) ≤ ((|z - w| : ℤ) : α) := Int.cast_le.mpr h1
  rw [Int.cast_abs, Int.cast_sub, Int.cast_one] at h2
  exact h2

theorem int_div_pow_far (z w : ℤ) (n : ℕ) (hzw : z ≠ w) :
    (1 : α) / 10 ^ n ≤ |((z : α)) / 10 ^ n - ((w : α)) / 10 ^ n| := by
  have h1 := one_le_abs_intCast_sub (α := α) z w hzw
  rw [div_sub_div_same, abs_div, abs_of_pos (show (0 : α) < 10 ^ n by positivity)]
  gcongr

theorem is_integer_intCast (z : ℤ) : is_integer ((z : ℚ)) = true := by
  unfold is_integer
  rw [rnd2even_intCast, sub_self, abs_zero]
  norm_num

theorem pytrunc_intCast (z : ℤ) : pytrunc ((z : ℚ)) = z := by
  unfold pytrunc
  split
  · exact Int.floor_intCast z
  · rw [← Int.cast_neg, Int.floor_intCast]
    omega

theorem decimalsFor_le (d : Difficulty) : decimalsFor d ≤ 3 := by
  cases d <;> simp [decimalsFor]

theorem eq_intCast_of_is_integer (z : ℤ) (n : ℕ) (hn : n ≤ 3)
    (h : is_integer (((z : ℚ)) / 10 ^ n) = true) :
    ((z : ℚ)) / 10 ^ n = ((rnd2even (((z : ℚ)) / 10 ^ n) : ℤ) : ℚ) := by
  set q : ℚ := ((z : ℚ)) / 10 ^ n with hq
  by_contra hne
  have habs : |q - ((rnd2even q : ℤ) : ℚ)| < 1/1000000000 := by
    simpa [is_integer] using h
  have hrep : ((rnd2even q : ℤ) : ℚ) = ((rnd2even q * 10 ^ n : ℤ) : ℚ) / 10 ^ n := by
    push_cast
    field_simp
  have hzw : z ≠ rnd2even q * 10 ^ n := by
    intro hc
    apply hne
    rw [hq, hrep, ← hc]
  have hfar := int_div_pow_far (α := ℚ) z (rnd2even q * 10 ^ n) n hzw
  rw [← hrep, ← hq] at hfar
  have h10 : (10 : ℚ) ^ n ≤ 1000 := by
    calc (10 : ℚ) ^ n ≤ 10 ^ 3 := by gcongr <;> norm_num
    _ = 1000 := by norm_num
  have hlow : (1 : ℚ)/1000 ≤ 1/10 ^ n := by
    apply one_div_le_one_div_of_le
    · positivity
    · exact h10
  linarith

theorem int_loop_mem (c m : ℤ) (seeds : List ℕ) :
    ∀ (opts : List ℤ) (x : ℤ), x ∈ opts → x ∈ int_distractor_loop c m seeds opts := by
  induction seeds with
  | nil => intro opts x hx; simpa [int_distractor_loop] using hx
  | cons s rest ih =>
    intro opts x hx
    simp only [int_distractor_loop]
    by_cases h4 : 4 ≤ opts.length
    · rw [if_pos h4]; exact hx
    · rw [if_neg h4]
      by_cases hd : randint (-m) m s = 0
      · rw [if_pos hd]; exact ih opts x hx
      · rw [if_neg hd]
        by_cases hmem : c + randint (-m) m s ∈ opts
        · rw [if_pos hmem]; exact ih opts x hx
        · rw [if_neg hmem]; exact ih _ x (List.mem_append_left _ hx)

theorem int_loop_nodup (c m : ℤ) (seeds : List ℕ) :
    ∀ opts : List ℤ, opts.Nodup → (int_distractor_loop c m seeds opts).Nodup := by
  induction seeds with
  | nil => intro opts h; simpa [int_distractor_loop] using h
  | cons s rest ih =>
    intro opts h
    simp only [int_distractor_loop]
    by_cases h4 : 4 ≤ opts.length
    · rw [if_pos h4]; exact h
    · rw [if_neg h4]
      by_cases hd : randint (-m) m s = 0
      · rw [if_pos hd]; exact ih opts h
      · rw [if_neg hd]
        by_cases hmem : c + randint (-m) m s ∈ opts
        · rw [if_pos hmem]; exact ih opts h
        · rw [if_neg hmem]
          apply ih
          simp [List.nodup_append, h, hmem]

theorem int_loop_shape (c m : ℤ) (hm : 0 ≤ m) (seeds : List ℕ) :
    ∀ opts : List ℤ,
      (∀ x ∈ opts, x = c ∨ (x - c ≠ 0 ∧ |x - c| ≤ m)) →
      ∀ x ∈ int_distractor_loop c m seeds opts, x = c ∨ (x - c ≠ 0 ∧ |x - c| ≤ m) := by
  induction seeds with
  | nil => intro opts h; simpa [int_distractor_loop] using h
  | cons s rest ih =>
    intro opts h
    simp only [int_distractor_loop]
    by_cases h4 : 4 ≤ opts.length
    · rw [if_pos h4]; exact h
    · rw [if_neg h4]
      by_cases hd : randint (-m) m s = 0
      · rw [if_pos hd]; exact ih opts h
      · rw [if_neg hd]
        by_cases hmem : c + randint (-m) m s ∈ opts
        · rw [if_pos hmem]; exact ih opts h
        · rw [if_neg hmem]
          apply ih
          intro x hx
          rcases List.mem_append.mp hx with hx | hx
          · exact h x hx
          · have hx' : x = c + randint (-m) m s := by simpa using hx
            subst hx'
            right
            have hb := randint_mem (-m) m s (by omega)
            constructor
            · simpa using hd
            · have he : c + randint (-m) m s - c = randint (-m) m s := by ring
              rw [he, abs_le]
              exact ⟨hb.1, hb.2⟩

theorem int_loop_length (c m : ℤ) (seeds : List ℕ) :
    ∀ opts : List ℤ, (int_distractor_loop c m seeds opts).length ≤ max 4 opts.length := by
  induction seeds with
  | nil => intro opts; simp only [int_distractor_loop]; omega
  | cons s rest ih =>
    intro opts
    simp only [int_distractor_loop]
    by_cases h4 : 4 ≤ opts.length
    · rw [if_pos h4]; omega
    · rw [if_neg h4]
      by_cases hd : randint (-m) m s = 0
      · rw [if_pos hd]; exact ih opts
      · rw [if_neg hd]
        by_cases hmem : c + randint (-m) m s ∈ opts
        · rw [if_pos hmem]; exact ih opts
        · rw [if_neg hmem]
          have h := ih (opts ++ [c + randint (-m) m s])
          rw [List.length_append] at h
          have h1 : ([c + randint (-m) m s] : List ℤ).length = 1 := rfl
          rw [h1] at h
          rcases le_or_lt (int_distractor_loop c m rest (opts ++ [c + randint (-m) m s])).length 4 with hc | hc
          · omega
          · omega

theorem int_loop_stable (c m : ℤ) (seeds : List ℕ) (opts : List ℤ) (h : 4 ≤ opts.length) :
    int_distractor_loop c m seeds opts = opts := by
  cases seeds with
  | nil => simp [int_distractor_loop]
  | cons s rest =>
    simp only [int_distractor_loop]
    rw [if_pos h]

theorem int_loop_cons (c m : ℤ) (s : ℕ) (rest : List ℕ) (opts : List ℤ)
    (h4 : ¬ 4 ≤ opts.length) :
    int_distractor_loop c m (s :: rest) opts =
      if randint (-m) m s = 0 then int_distractor_loop c m rest opts
      else if c + randint (-m) m s ∈ opts then int_distractor_loop c m rest opts
      else int_distractor_loop c m rest (opts ++ [c + randint (-m) m s]) := by
  simp only [int_distractor_loop]
  rw [if_neg h4]

theorem int_loop_append (c m : ℤ) (seeds : List ℕ) :
    ∀ (extra : List ℕ) (opts : List ℤ),
      (int_distractor_loop c m seeds opts).length = 4 →
      int_distractor_loop c m (seeds ++ extra) opts = int_distractor_loop c m seeds opts := by
  induction seeds with
  | nil =>
    intro extra opts h
    simp only [int_distractor_loop] at h
    simp only [List.nil_append]
    rw [int_loop_stable c m extra opts (by omega)]
    simp [int_distractor_loop]
  | cons s rest ih =>
    intro extra opts h
    rw [List.cons_append]
    by_cases h4 : 4 ≤ opts.length
    · rw [int_loop_stable c m (s :: (rest ++ extra)) opts h4,
        int_loop_stable c m (s :: rest) opts h4]
    · rw [int_loop_cons c m s (rest ++ extra) opts h4, int_loop_cons c m s rest opts h4]
      rw [int_loop_cons c m s rest opts h4] at h
      by_cases hd : randint (-m) m s = 0
      · rw [if_pos hd] at h ⊢
        rw [if_pos hd]
        exact ih extra opts h
      · rw [if_neg hd] at h ⊢
        rw [if_neg hd]
        by_cases hmem : c + randint (-m) m s ∈ opts
        · rw [if_pos hmem] at h ⊢
          rw [if_pos hmem]
          exact ih extra opts h
        · rw [if_neg hmem] at h ⊢
          rw [if_neg hmem]
          exact ih extra _ h

/-- C6: the integer distractor branch: `magnitude = max(5, |correct| // 5)`;
every returned option other than `correct` is `correct + delta` for a nonzero
integer `delta` with `|delta| ≤ magnitude`; the returned set is
duplicate-free, contains `correct`, never exceeds 4 members, and once 4
distinct members exist further random draws change nothing. -/
theorem C6_integer_distractors (correct : ℤ) (seeds extra : List ℕ) (shuffleSeed : ℕ) :
    (generate_integer_distractors correct seeds shuffleSeed).Nodup ∧
    correct ∈ generate_integer_distractors correct seeds shuffleSeed ∧
    (generate_integer_distractors correct seeds shuffleSeed).length ≤ 4 ∧
    (∀ x ∈ generate_integer_distractors correct seeds shuffleSeed,
      x = correct ∨ (x - correct ≠ 0 ∧ |x - correct| ≤ max 5 (|correct| / 5))) ∧
    ((generate_integer_distractors correct seeds shuffleSeed).length = 4 →
      generate_integer_distractors correct (seeds ++ extra) shuffleSeed =
        generate_integer_distractors correct seeds shuffleSeed) := by
  unfold generate_integer_distractors pyShuffle
  have hperm := List.rotate_perm
    (int_distractor_loop correct (max 5 (|correct| / 5)) seeds [correct]) shuffleSeed
  refine ⟨?_, ?_, ?_, ?_, ?_⟩
  · exact hperm.nodup_iff.mpr (int_loop_nodup _ _ seeds [correct] (by simp))
  · exact hperm.mem_iff.mpr (int_loop_mem _ _ seeds [correct] correct (by simp))
  · rw [List.length_rotate]
    have h := int_loop_length correct (max 5 (|correct| / 5)) seeds [correct]
    simp only [List.length_singleton] at h
    omega
  · intro x hx
    exact int_loop_shape correct (max 5 (|correct| / 5))
      (by have := le_max_left (5 : ℤ) (|correct| / 5); omega) seeds [correct]
      (by intro y hy; left; simpa using hy) x (hperm.mem_iff.mp hx)
  · intro hlen
    rw [List.length_rotate] at hlen
    rw [int_loop_append correct (max 5 (|correct| / 5)) seeds extra [correct] hlen]

/-- C6 witness: the theorem evaluated on the concrete run with answer 7,
draw seeds `[0, 1, 2]` (producing options `[7, 2, 3, 4]`), and one extra
ignored draw. -/
theorem C6_integer_distractors_witness :
    (generate_integer_distractors 7 [0, 1, 2] 0).Nodup ∧
    7 ∈ generate_integer_distractors 7 [0, 1, 2] 0 ∧
    (generate_integer_distractors 7 [0, 1, 2] 0).length ≤ 4 ∧
    (∀ x ∈ generate_integer_distractors 7 [0, 1, 2] 0,
      x = 7 ∨ (x - 7 ≠ 0 ∧ |x - 7| ≤ max 5 (|(7 : ℤ)| / 5))) ∧
    generate_integer_distractors 7 ([0, 1, 2] ++ [9]) 0 =
      generate_integer_distractors 7 [0, 1, 2] 0 := by
  have h := C6_integer_distractors 7 [0, 1, 2] [9] 0
  exact ⟨h.1, h.2.1, h.2.2.1, h.2.2.2.1, h.2.2.2.2 (by decide)⟩

theorem dec_loop_mem (c : ℚ) (dec : ℕ) (sp : ℚ) (seeds : List ℕ) :
    ∀ (opts : List ℚ) (x : ℚ), x ∈ opts → x ∈ dec_distractor_loop c dec sp seeds opts := by
  induction seeds with
  | nil => intro opts x hx; simpa [dec_distractor_loop] using hx
  | cons s rest ih =>
    intro opts x hx
    simp only [dec_distractor_loop]
    by_cases h4 : 4 ≤ opts.length
    · rw [if_pos h4]; exact hx
    · rw [if_neg h4]
      by_cases hmem : pyRound (c + (unif s - 1/2) * sp) dec ∈ opts
      · rw [if_pos hmem]; exact ih opts x hx
      · rw [if_neg hmem]; exact ih _ x (List.mem_append_left _ hx)

theorem dec_loop_nodup (c : ℚ) (dec : ℕ) (sp : ℚ) (seeds : List ℕ) :
    ∀ opts : List ℚ, opts.Nodup → (dec_distractor_loop c dec sp seeds opts).Nodup := by
  induction seeds with
  | nil => intro opts h; simpa [dec_distractor_loop] using h
  | cons s rest ih =>
    intro opts h
    simp only [dec_distractor_loop]
    by_cases h4 : 4 ≤ opts.length
    · rw [if_pos h4]; exact h
    · rw [if_neg h4]
      by_cases hmem : pyRound (c + (unif s - 1/2) * sp) dec ∈ opts
      · rw [if_pos hmem]; exact ih opts h
      · rw [if_neg hmem]
        apply ih
        exact List.Nodup.append h (List.nodup_singleton _)
          (List.disjoint_singleton.mpr hmem)

theorem dec_loop_shape (c : ℚ) (dec : ℕ) (sp : ℚ) (seeds : List ℕ) :
    ∀ opts : List ℚ,
      (∀ x ∈ opts, ∃ z : ℤ, x = ((z : ℚ)) / 10 ^ dec) →
      ∀ x ∈ dec_distractor_loop c dec sp seeds opts, ∃ z : ℤ, x = ((z : ℚ)) / 10 ^ dec := by
  induction seeds with
  | nil => intro opts h; simpa [dec_distractor_loop] using h
  | cons s rest ih =>
    intro opts h
    simp only [dec_distractor_loop]
    by_cases h4 : 4 ≤ opts.length
    · rw [if_pos h4]; exact h
    · rw [if_neg h4]
      by_cases hmem : pyRound (c + (unif s - 1/2) * sp) dec ∈ opts
      · rw [if_pos hmem]; exact ih opts h
      · rw [if_neg hmem]
        apply ih
        intro x hx
        rcases List.mem_append.mp hx with hx | hx
        · exact h x hx
        · have hx' : x = pyRound (c + (unif s - 1/2) * sp) dec := by simpa using hx
          rw [hx']
          exact pyRound_rep _ dec

theorem countP_eq_one_of (p : ℚ → Bool) :
    ∀ (l : List ℚ) (a : ℚ), l.Nodup → a ∈ l → (∀ x ∈ l, (p x = true ↔ x = a)) →
      l.countP p = 1 := by
  intro l
  induction l with
  | nil => intro a _ ha _; simp at ha
  | cons b t ih =>
    intro a hnd hmem hp
    have hnd' := List.nodup_cons.mp hnd
    rw [List.countP_cons]
    rcases List.mem_cons.mp hmem with heq | hmem'
    · subst heq
      have hb : p a = true := (hp a (List.mem_cons_self a t)).mpr rfl
      have ht : t.countP p = 0 := by
        rw [List.countP_eq_zero]
        intro x hx hpx
        have hxa : x = a := (hp x (List.mem_cons_of_mem a hx)).mp hpx
        rw [hxa] at hx
        exact hnd'.1 hx
      rw [ht, hb]
      simp
    · have hb : p b = false := by
        by_cases hpb : p b = true
        · have hba : b = a := (hp b (List.mem_cons_self b t)).mp hpb
          rw [hba] at hnd'
          exact absurd hmem' hnd'.1
        · exact Bool.eq_false_iff.mpr hpb
      rw [hb]
      have := ih a hnd'.2 hmem' (fun x hx => hp x (List.mem_cons_of_mem b hx))
      simpa using this

theorem mem_mcq_options_self (d : Difficulty) (x : ℚ) (seeds : List ℕ) (ss : ℕ) (z : ℤ)
    (hx : x = ((z : ℚ)) / 10 ^ decimalsFor d) :
    x ∈ mcq_options x d seeds ss := by
  unfold mcq_options
  by_cases hi : is_integer x = true
  · rw [if_pos hi]
    have hint : x = ((rnd2even x : ℤ) : ℚ) := by
      rw [hx]
      exact eq_intCast_of_is_integer z _ (decimalsFor_le d) (hx ▸ hi)
    have htr : pytrunc x = rnd2even x := by
      conv_lhs => rw [hint]
      exact pytrunc_intCast _
    rw [htr]
    refine List.mem_map.mpr ⟨rnd2even x, ?_, hint.symm⟩
    unfold generate_integer_distractors pyShuffle
    exact (List.rotate_perm _ _).mem_iff.mpr
      (int_loop_mem _ _ seeds [rnd2even x] (rnd2even x) (by simp))
  · rw [if_neg hi]
    unfold generate_decimal_distractors pyShuffle
    apply (List.rotate_perm _ _).mem_iff.mpr
    apply dec_loop_mem
    have hfix : pyRound x (decimalsFor d) = x := by
      rw [hx]
      exact pyRound_int_div z _
    rw [hfix]
    simp

/-- C1 (amended): provided the correct answer is already expressed at the
difficulty's decimal depth (exact integers included), every completed run of
`mcq_options` (4 distinct values collected) yields exactly 4 pairwise
distinct options of which exactly one differs from the correct answer by
less than `1e-9`. -/
theorem C1_mcq_options (d : Difficulty) (correct : ℚ) (seeds : List ℕ) (ss : ℕ)
    (hdepth : pyRound correct (decimalsFor d) = correct)
    (hlen : (mcq_options correct d seeds ss).length = 4) :
    (mcq_options correct d seeds ss).length = 4 ∧
    (mcq_options correct d seeds ss).Nodup ∧
    (mcq_options correct d seeds ss).countP
      (fun x => decide (|x - correct| < 1/1000000000)) = 1 := by
  obtain ⟨z, hz⟩ : ∃ z : ℤ, correct = ((z : ℚ)) / 10 ^ decimalsFor d := by
    obtain ⟨z, hz⟩ := pyRound_rep correct (decimalsFor d)
    exact ⟨z, by rw [← hdepth, hz]⟩
  have hfar : (1 : ℚ)/1000000000 < 1/10 ^ decimalsFor d := by
    have h10 : (10 : ℚ) ^ decimalsFor d ≤ 1000 := by
      calc (10 : ℚ) ^ decimalsFor d ≤ 10 ^ 3 := by
            have := decimalsFor_le d
            gcongr <;> norm_num
      _ = 1000 := by norm_num
    have hlow : (1 : ℚ)/1000 ≤ 1/10 ^ decimalsFor d :=
      one_div_le_one_div_of_le (by positivity) h10
    linarith
  have hclose_iff : ∀ y : ℤ, (|((y : ℚ)) / 10 ^ decimalsFor d - correct| < 1/1000000000
      ↔ ((y : ℚ)) / 10 ^ decimalsFor d = correct) := by
    intro y
    constructor
    · intro hlt
      by_contra hne
      have hne' : y ≠ z := by
        intro hc
        exact hne (by rw [hc, ← hz])
      have := int_div_pow_far (α := ℚ) y z (decimalsFor d) hne'
      rw [← hz] at this
      linarith
    · intro heq
      rw [heq, sub_self, abs_zero]
      norm_num
  have hmem := mem_mcq_options_self d correct seeds ss z hz
  have hshape : ∀ x ∈ mcq_options correct d seeds ss,
      ∃ y : ℤ, x = ((y : ℚ)) / 10 ^ decimalsFor d := by
    intro x hxm
    unfold mcq_options at hxm
    by_cases hi : is_integer correct = true
    · rw [if_pos hi] at hxm
      obtain ⟨y, _, hy⟩ := List.mem_map.mp hxm
      refine ⟨y * 10 ^ decimalsFor d, ?_⟩
      rw [← hy]
      push_cast
      field_simp
    · rw [if_neg hi] at hxm
      unfold generate_decimal_distractors pyShuffle at hxm
      apply dec_loop_shape correct (decimalsFor d) _ seeds [pyRound correct (decimalsFor d)]
      · intro w hw
        have hw' : w = pyRound correct (decimalsFor d) := by simpa using hw
        rw [hw']
        exact pyRound_rep _ _
      · exact (List.rotate_perm _ _).mem_iff.mp hxm
  have hnodup : (mcq_options correct d seeds ss).Nodup := by
    unfold mcq_options
    by_cases hi : is_integer correct = true
    · rw [if_pos hi]
      apply List.Nodup.map (fun u v huv => by exact_mod_cast huv)
      unfold generate_integer_distractors pyShuffle
      exact (List.rotate_perm _ _).nodup_iff.mpr (int_loop_nodup _ _ seeds _ (by simp))
    · rw [if_neg hi]
      unfold generate_decimal_distractors pyShuffle
      exact (List.rotate_perm _ _).nodup_iff.mpr (dec_loop_nodup _ _ _ seeds _ (by simp))
  refine ⟨hlen, hnodup, ?_⟩
  apply countP_eq_one_of _ _ correct hnodup hmem
  intro x hxm
  obtain ⟨y, hy⟩ := hshape x hxm
  rw [hy]
  simp only [decide_eq_true_eq]
  exact hclose_iff y

/-- C1 witness: the amended theorem evaluated on the drill answer 7 at easy
difficulty with draw seeds `[0, 1, 2]`. -/
theorem C1_mcq_options_witness :
    (mcq_options 7 .easy [0, 1, 2] 0).length = 4 ∧
    (mcq_options 7 .easy [0, 1, 2] 0).Nodup ∧
    (mcq_options 7 .easy [0, 1, 2] 0).countP
      (fun x => decide (|x - 7| < 1/1000000000)) = 1 :=
  C1_mcq_options .easy 7 [0, 1, 2] 0 (by with_unfolding_all decide)
    (by with_unfolding_all decide)

/-- C1 counterexample: for the reachable probability-mode answer `0.5833`
(urn, 7 red and 5 blue) at hard difficulty, a completed run of `mcq_options`
returns 4 distinct values none of which is within `1e-9` of the correct
answer, refuting the claimed invariant for general numeric answers. -/
theorem C1_mcq_options_counterexample :
    (mcq_options (5833/10000) .hard [0, 999999, 250000, 750000] 0).length = 4 ∧
    (mcq_options (5833/10000) .hard [0, 999999, 250000, 750000] 0).Nodup ∧
    (mcq_options (5833/10000) .hard [0, 999999, 250000, 750000] 0).countP
      (fun x => decide (|x - 5833/10000| < 1/1000000000)) = 0 := by
  refine ⟨?_, ?_, ?_⟩ <;> with_unfolding_all decide

theorem intCast_rep (w : ℤ) (n : ℕ) : ((w : ℚ)) = ((w * 10 ^ n : ℤ) : ℚ) / 10 ^ n := by
  push_cast
  rw [mul_div_assoc, div_self (by positivity : ((10 : ℚ)) ^ n ≠ 0), mul_one]

theorem round_to_difficulty_eq (v : α) (d : Difficulty) :
    round_to_difficulty v d = pyRound v (decimalsFor d) := by
  cases d <;> simp [round_to_difficulty, decimalsFor]

theorem round_to_difficulty_rep (v : ℚ) (d : Difficulty) :
    ∃ z : ℤ, round_to_difficulty v d = ((z : ℚ)) / 10 ^ decimalsFor d := by
  rw [round_to_difficulty_eq]
  exact pyRound_rep _ _

theorem pychoice_ARITH_cases (t : ℕ) :
    pychoice ARITH t gen_add = gen_add ∨ pychoice ARITH t gen_add = gen_sub ∨
    pychoice ARITH t gen_add = gen_mul ∨ pychoice ARITH t gen_add = gen_div ∨
    pychoice ARITH t gen_add = gen_decimal ∨ pychoice ARITH t gen_add = gen_square ∨
    pychoice ARITH t gen_add = gen_cube := by
  have hm := pychoice_mem ARITH t gen_add (by simp [ARITH])
  simpa only [ARITH, List.mem_cons, List.not_mem_nil, or_false] using hm

theorem gen_div_easy_val (s1 s2 : ℕ) :
    (gen_div .easy s1 s2).2 = ((randint 2 50 s2 : ℤ) : ℚ) := by
  have hmem := pychoice_mem [(2 : ℤ), 4, 5, 8] s1 2 (by simp)
  have hb0 : ((pychoice [(2 : ℤ), 4, 5, 8] s1 2 : ℤ) : ℚ) ≠ 0 := by
    have h : pychoice [(2 : ℤ), 4, 5, 8] s1 2 ≠ 0 := by
      intro hc
      rw [hc] at hmem
      exact absurd hmem (by decide)
    exact_mod_cast h
  show ((pychoice [(2 : ℤ), 4, 5, 8] s1 2 * randint 2 50 s2 : ℤ) : ℚ) /
      ((pychoice [(2 : ℤ), 4, 5, 8] s1 2 : ℤ) : ℚ) = _
  push_cast
  exact mul_div_cancel_left₀ _ hb0

theorem arith_answer_rep (d : Difficulty) (t s1 s2 : ℕ) :
    ∃ z : ℤ, ((pychoice ARITH t gen_add) d s1 s2).2 = ((z : ℚ)) / 10 ^ decimalsFor d := by
  rcases pychoice_ARITH_cases t with h | h | h | h | h | h | h <;> rw [h]
  · cases d <;> exact ⟨_, intCast_rep _ _⟩
  · cases d <;> exact ⟨_, intCast_rep _ _⟩
  · cases d <;> exact ⟨_, intCast_rep _ _⟩
  · cases d
    · rw [gen_div_easy_val s1 s2]
      exact ⟨_, intCast_rep _ _⟩
    · exact round_to_difficulty_rep
        (((randint 50 800 s2 : ℤ) : ℚ) / ((randint 2 40 s1 : ℤ) : ℚ)) .medium
    · exact round_to_difficulty_rep
        (((randint 100 4000 s2 : ℤ) : ℚ) / ((randint 3 90 s1 : ℤ) : ℚ)) .hard
  · cases d
    · exact round_to_difficulty_rep
        (pychoice [(1/10 : ℚ), 2/10, 25/100, 5/10, 75/100] s1 (1/10) *
          ((randint 20 500 s2 : ℤ) : ℚ)) .easy
    · exact round_to_difficulty_rep
        (pychoice [(1/10 : ℚ), 2/10, 25/100, 33/100, 5/10, 66/100, 75/100] s1 (1/10) *
          ((randint 50 2000 s2 : ℤ) : ℚ)) .medium
    · exact round_to_difficulty_rep
        (pyRound (uniform (1/1000) (9/10) s1) 3 * ((randint 200 20000 s2 : ℤ) : ℚ)) .hard
  · cases d <;> exact ⟨_, intCast_rep _ _⟩
  · cases d <;> exact ⟨_, intCast_rep _ _⟩

/-- C10: in the 80-in-8 drill, every arithmetic answer generated at the
session difficulty is an exact member of the option list built for it by
`mcq_options`, so the `opts.index(ans)` lookup of the source never raises
`ValueError`. -/
theorem C10_answer_in_options (d : Difficulty) (t s1 s2 : ℕ) (seeds : List ℕ) (ss : ℕ) :
    ((pychoice ARITH t gen_add) d s1 s2).2 ∈
      mcq_options (((pychoice ARITH t gen_add) d s1 s2).2) d seeds ss ∧
    (mcq_options (((pychoice ARITH t gen_add) d s1 s2).2) d seeds ss).indexOf
        (((pychoice ARITH t gen_add) d s1 s2).2) <
      (mcq_options (((pychoice ARITH t gen_add) d s1 s2).2) d seeds ss).length := by
  obtain ⟨z, hz⟩ := arith_answer_rep d t s1 s2
  have hmem := mem_mcq_options_self d _ seeds ss z hz
  exact ⟨hmem, List.indexOf_lt_length.mpr hmem⟩

theorem gen_add_spec (d : Difficulty) (s1 s2 : ℕ) :
    (gen_add d s1 s2).2 = (gen_add d s1 s2).1.exact ∧
    (match d with
     | .easy => (20 : ℚ) ≤ (gen_add d s1 s2).1.a ∧ (gen_add d s1 s2).1.a ≤ 200 ∧
         (20 : ℚ) ≤ (gen_add d s1 s2).1.b ∧ (gen_add d s1 s2).1.b ≤ 200
     | .medium => (100 : ℚ) ≤ (gen_add d s1 s2).1.a ∧ (gen_add d s1 s2).1.a ≤ 900 ∧
         (100 : ℚ) ≤ (gen_add d s1 s2).1.b ∧ (gen_add d s1 s2).1.b ≤ 900
     | .hard => (1000 : ℚ) ≤ (gen_add d s1 s2).1.a ∧ (gen_add d s1 s2).1.a ≤ 9999 ∧
         (1000 : ℚ) ≤ (gen_add d s1 s2).1.b ∧ (gen_add d s1 s2).1.b ≤ 9999) := by
  cases d
  · refine ⟨by simp only [gen_add, ArithQ.exact]; push_cast; ring, ?_⟩
    have hb1 := randint_mem 20 200 s1 (by norm_num)
    have hb2 := randint_mem 20 200 s2 (by norm_num)
    simp only [gen_add]
    exact ⟨by exact_mod_cast hb1.1, by exact_mod_cast hb1.2,
      by exact_mod_cast hb2.1, by exact_mod_cast hb2.2⟩
  · refine ⟨by simp only [gen_add, ArithQ.exact]; push_cast; ring, ?_⟩
    have hb1 := randint_mem 100 900 s1 (by norm_num)
    have hb2 := randint_mem 100 900 s2 (by norm_num)
    simp only [gen_add]
    exact ⟨by exact_mod_cast hb1.1, by exact_mod_cast hb1.2,
      by exact_mod_cast hb2.1, by exact_mod_cast hb2.2⟩
  · refine ⟨by simp only [gen_add, ArithQ.exact]; push_cast; ring, ?_⟩
    have hb1 := randint_mem 1000 9999 s1 (by norm_num)
    have hb2 := randint_mem 1000 9999 s2 (by norm_num)
    simp only [gen_add]
    exact ⟨by exact_mod_cast hb1.1, by exact_mod_cast hb1.2,
      by exact_mod_cast hb2.1, by exact_mod_cast hb2.2⟩

theorem gen_sub_spec (d : Difficulty) (s1 s2 : ℕ) :
    (gen_sub d s1 s2).2 = (gen_sub d s1 s2).1.exact ∧
    (match d with
     | .easy => (50 : ℚ) ≤ (gen_sub d s1 s2).1.a ∧ (gen_sub d s1 s2).1.a ≤ 300 ∧
         (10 : ℚ) ≤ (gen_sub d s1 s2).1.b ∧ (gen_sub d s1 s2).1.b ≤ 200
     | .medium => (500 : ℚ) ≤ (gen_sub d s1 s2).1.a ∧ (gen_sub d s1 s2).1.a ≤ 2000 ∧
         (200 : ℚ) ≤ (gen_sub d s1 s2).1.b ∧ (gen_sub d s1 s2).1.b ≤ 1500
     | .hard => (2000 : ℚ) ≤ (gen_sub d s1 s2).1.a ∧ (gen_sub d s1 s2).1.a ≤ 9999 ∧
         (500 : ℚ) ≤ (gen_sub d s1 s2).1.b ∧ (gen_sub d s1 s2).1.b ≤ 9000) := by
  cases d
  · refine ⟨by simp only [gen_sub, ArithQ.exact]; push_cast; ring, ?_⟩
    have hb1 := randint_mem 50 300 s1 (by norm_num)
    have hb2 := randint_mem 10 200 s2 (by norm_num)
    simp only [gen_sub]
    exact ⟨by exact_mod_cast hb1.1, by exact_mod_cast hb1.2,
      by exact_mod_cast hb2.1, by exact_mod_cast hb2.2⟩
  · refine ⟨by simp only [gen_sub, ArithQ.exact]; push_cast; ring, ?_⟩
    have hb1 := randint_mem 500 2000 s1 (by norm_num)
    have hb2 := randint_mem 200 1500 s2 (by norm_num)
    simp only [gen_sub]
    exact ⟨by exact_mod_cast hb1.1, by exact_mod_cast hb1.2,
      by exact_mod_cast hb2.1, by exact_mod_cast hb2.2⟩
  · refine ⟨by simp only [gen_sub, ArithQ.exact]; push_cast; ring, ?_⟩
    have hb1 := randint_mem 2000 9999 s1 (by norm_num)
    have hb2 := randint_mem 500 9000 s2 (by norm_num)
    simp only [gen_sub]
    exact ⟨by exact_mod_cast hb1.1, by exact_mod_cast hb1.2,
      by exact_mod_cast hb2.1, by exact_mod_cast hb2.2⟩

theorem gen_mul_spec (d : Difficulty) (s1 s2 : ℕ) :
    (gen_mul d s1 s2).2 = (gen_mul d s1 s2).1.exact ∧
    (match d with
     | .easy => (10 : ℚ) ≤ (gen_mul d s1 s2).1.a ∧ (gen_mul d s1 s2).1.a ≤ 80 ∧
         (2 : ℚ) ≤ (gen_mul d s1 s2).1.b ∧ (gen_mul d s1 s2).1.b ≤ 9
     | .medium => (20 : ℚ) ≤ (gen_mul d s1 s2).1.a ∧ (gen_mul d s1 s2).1.a ≤ 99 ∧
         (10 : ℚ) ≤ (gen_mul d s1 s2).1.b ∧ (gen_mul d s1 s2).1.b ≤ 99
     | .hard => (100 : ℚ) ≤ (gen_mul d s1 s2).1.a ∧ (gen_mul d s1 s2).1.a ≤ 999 ∧
         (10 : ℚ) ≤ (gen_mul d s1 s2).1.b ∧ (gen_mul d s1 s2).1.b ≤ 99) := by
  cases d
  · refine ⟨by simp only [gen_mul, ArithQ.exact]; push_cast; ring, ?_⟩
    have hb1 := randint_mem 10 80 s1 (by norm_num)
    have hb2 := randint_mem 2 9 s2 (by norm_num)
    simp only [gen_mul]
    exact ⟨by exact_mod_cast hb1.1, by exact_mod_cast hb1.2,
      by exact_mod_cast hb2.1, by exact_mod_cast hb2.2⟩
  · refine ⟨by simp only [gen_mul, ArithQ.exact]; push_cast; ring, ?_⟩
    have hb1 := randint_mem 20 99 s1 (by norm_num)
    have hb2 := randint_mem 10 99 s2 (by norm_num)
    simp only [gen_mul]
    exact ⟨by exact_mod_cast hb1.1, by exact_mod_cast hb1.2,
      by exact_mod_cast hb2.1, by exact_mod_cast hb2.2⟩
  · refine ⟨by simp only [gen_mul, ArithQ.exact]; push_cast; ring, ?_⟩
    have hb1 := randint_mem 100 999 s1 (by norm_num)
    have hb2 := randint_mem 10 99 s2 (by norm_num)
    simp only [gen_mul]
    exact ⟨by exact_mod_cast hb1.1, by exact_mod_cast hb1.2,
      by exact_mod_cast hb2.1, by exact_mod_cast hb2.2⟩

theorem gen_square_spec (d : Difficulty) (s1 s2 : ℕ) :
    (gen_square d s1 s2).2 = (gen_square d s1 s2).1.exact ∧
    (match d with
     | .easy => (5 : ℚ) ≤ (gen_square d s1 s2).1.a ∧ (gen_square d s1 s2).1.a ≤ 20
     | .medium => (20 : ℚ) ≤ (gen_square d s1 s2).1.a ∧ (gen_square d s1 s2).1.a ≤ 50
     | .hard => (40 : ℚ) ≤ (gen_square d s1 s2).1.a ∧ (gen_square d s1 s2).1.a ≤ 120) := by
  cases d
  · refine ⟨by simp only [gen_square, ArithQ.exact]; push_cast; ring, ?_⟩
    have hb1 := randint_mem 5 20 s1 (by norm_num)
    simp only [gen_square]
    exact ⟨by exact_mod_cast hb1.1, by exact_mod_cast hb1.2⟩
  · refine ⟨by simp only [gen_square, ArithQ.exact]; push_cast; ring, ?_⟩
    have hb1 := randint_mem 20 50 s1 (by norm_num)
    simp only [gen_square]
    exact ⟨by exact_mod_cast hb1.1, by exact_mod_cast hb1.2⟩
  · refine ⟨by simp only [gen_square, ArithQ.exact]; push_cast; ring, ?_⟩
    have hb1 := randint_mem 40 120 s1 (by norm_num)
    simp only [gen_square]
    exact ⟨by exact_mod_cast hb1.1, by exact_mod_cast hb1.2⟩

theorem gen_cube_spec (d : Difficulty) (s1 s2 : ℕ) :
    (gen_cube d s1 s2).2 = (gen_cube d s1 s2).1.exact ∧
    (match d with
     | .easy => (2 : ℚ) ≤ (gen_cube d s1 s2).1.a ∧ (gen_cube d s1 s2).1.a ≤ 6
     | .medium => (5 : ℚ) ≤ (gen_cube d s1 s2).1.a ∧ (gen_cube d s1 s2).1.a ≤ 12
     | .hard => (8 : ℚ) ≤ (gen_cube d s1 s2).1.a ∧ (gen_cube d s1 s2).1.a ≤ 20) := by
  cases d
  · refine ⟨by simp only [gen_cube, ArithQ.exact]; push_cast; ring, ?_⟩
    have hb1 := randint_mem 2 6 s1 (by norm_num)
    simp only [gen_cube]
    exact ⟨by exact_mod_cast hb1.1, by exact_mod_cast hb1.2⟩
  · refine ⟨by simp only [gen_cube, ArithQ.exact]; push_cast; ring, ?_⟩
    have hb1 := randint_mem 5 12 s1 (by norm_num)
    simp only [gen_cube]
    exact ⟨by exact_mod_cast hb1.1, by exact_mod_cast hb1.2⟩
  · refine ⟨by simp only [gen_cube, ArithQ.exact]; push_cast; ring, ?_⟩
    have hb1 := randint_mem 8 20 s1 (by norm_num)
    simp only [gen_cube]
    exact ⟨by exact_mod_cast hb1.1, by exact_mod_cast hb1.2⟩

theorem gen_div_spec (d : Difficulty) (s1 s2 : ℕ) :
    (match d with
     | .easy => (gen_div d s1 s2).2 = (gen_div d s1 s2).1.exact
     | .medium => (gen_div d s1 s2).2 = round_to_difficulty ((gen_div d s1 s2).1.exact) d
     | .hard => (gen_div d s1 s2).2 = round_to_difficulty ((gen_div d s1 s2).1.exact) d) ∧
    (match d with
     | .easy => (gen_div d s1 s2).1.b ∈ [(2 : ℚ), 4, 5, 8] ∧
         (∃ k : ℤ, 2 ≤ k ∧ k ≤ 50 ∧ (gen_div d s1 s2).1.a = (gen_div d s1 s2).1.b * ((k : ℚ)))
     | .medium => (2 : ℚ) ≤ (gen_div d s1 s2).1.b ∧ (gen_div d s1 s2).1.b ≤ 40 ∧
         (50 : ℚ) ≤ (gen_div d s1 s2).1.a ∧ (gen_div d s1 s2).1.a ≤ 800
     | .hard => (3 : ℚ) ≤ (gen_div d s1 s2).1.b ∧ (gen_div d s1 s2).1.b ≤ 90 ∧
         (100 : ℚ) ≤ (gen_div d s1 s2).1.a ∧ (gen_div d s1 s2).1.a ≤ 4000) := by
  cases d
  · refine ⟨rfl, ?_, ?_⟩
    · simp only [gen_div]
      have hmem := pychoice_mem [(2 : ℤ), 4, 5, 8] s1 2 (by simp)
      have hcases : pychoice [(2 : ℤ), 4, 5, 8] s1 2 = 2 ∨ pychoice [(2 : ℤ), 4, 5, 8] s1 2 = 4 ∨
          pychoice [(2 : ℤ), 4, 5, 8] s1 2 = 5 ∨ pychoice [(2 : ℤ), 4, 5, 8] s1 2 = 8 := by
        simpa using hmem
      rcases hcases with h | h | h | h <;> rw [h] <;> norm_num
    · refine ⟨randint 2 50 s2, ?_, ?_, ?_⟩
      · exact (randint_mem 2 50 s2 (by norm_num)).1
      · exact (randint_mem 2 50 s2 (by norm_num)).2
      · simp only [gen_div]
        push_cast
        ring
  · refine ⟨rfl, ?_⟩
    have hb1 := randint_mem 2 40 s1 (by norm_num)
    have hb2 := randint_mem 50 800 s2 (by norm_num)
    simp only [gen_div]
    exact ⟨by exact_mod_cast hb1.1, by exact_mod_cast hb1.2,
      by exact_mod_cast hb2.1, by exact_mod_cast hb2.2⟩
  · refine ⟨rfl, ?_⟩
    have hb1 := randint_mem 3 90 s1 (by norm_num)
    have hb2 := randint_mem 100 4000 s2 (by norm_num)
    simp only [gen_div]
    exact ⟨by exact_mod_cast hb1.1, by exact_mod_cast hb1.2,
      by exact_mod_cast hb2.1, by exact_mod_cast hb2.2⟩

theorem gen_decimal_spec (d : Difficulty) (s1 s2 : ℕ) :
    (gen_decimal d s1 s2).2 = round_to_difficulty ((gen_decimal d s1 s2).1.exact) d ∧
    (match d with
     | .easy => (gen_decimal d s1 s2).1.a ∈ [(1/10 : ℚ), 2/10, 25/100, 5/10, 75/100] ∧
         (20 : ℚ) ≤ (gen_decimal d s1 s2).1.b ∧ (gen_decimal d s1 s2).1.b ≤ 500
     | .medium =>
         (gen_decimal d s1 s2).1.a ∈ [(1/10 : ℚ), 2/10, 25/100, 33/100, 5/10, 66/100, 75/100] ∧
         (50 : ℚ) ≤ (gen_decimal d s1 s2).1.b ∧ (gen_decimal d s1 s2).1.b ≤ 2000
     | .hard => (gen_decimal d s1 s2).1.a = pyRound (uniform (1/1000) (9/10) s1) 3 ∧
         (200 : ℚ) ≤ (gen_decimal d s1 s2).1.b ∧ (gen_decimal d s1 s2).1.b ≤ 20000) := by
  cases d
  · refine ⟨rfl, ?_, ?_, ?_⟩
    · exact pychoice_mem [(1/10 : ℚ), 2/10, 25/100, 5/10, 75/100] s1 (1/10) (by simp)
    · simp only [gen_decimal]
      exact_mod_cast (randint_mem 20 500 s2 (by norm_num)).1
    · simp only [gen_decimal]
      exact_mod_cast (randint_mem 20 500 s2 (by norm_num)).2
  · refine ⟨rfl, ?_, ?_, ?_⟩
    · exact pychoice_mem [(1/10 : ℚ), 2/10, 25/100, 33/100, 5/10, 66/100, 75/100] s1 (1/10)
        (by simp)
    · simp only [gen_decimal]
      exact_mod_cast (randint_mem 50 2000 s2 (by norm_num)).1
    · simp only [gen_decimal]
      exact_mod_cast (randint_mem 50 2000 s2 (by norm_num)).2
  · refine ⟨rfl, rfl, ?_, ?_⟩
    · simp only [gen_decimal]
      exact_mod_cast (randint_mem 200 20000 s2 (by norm_num)).1
    · simp only [gen_decimal]
      exact_mod_cast (randint_mem 200 20000 s2 (by norm_num)).2

/-- C5: for every difficulty, each arithmetic topic generator returns the
exact arithmetic value of the operands shown in the prompt — medium/hard
division and the decimals topic being rounded to the difficulty depth via
`round_to_difficulty` — and the operands are drawn from the inclusive
difficulty bands of the documented table (easy division: `b ∈ {2,4,5,8}`
and `a = b·k` with `k ∈ [2,50]`, exact). -/
theorem C5_arith_generators (d : Difficulty) (s1 s2 : ℕ) :
    ((gen_add d s1 s2).2 = (gen_add d s1 s2).1.exact ∧
    (match d with
     | .easy => (20 : ℚ) ≤ (gen_add d s1 s2).1.a ∧ (gen_add d s1 s2).1.a ≤ 200 ∧
         (20 : ℚ) ≤ (gen_add d s1 s2).1.b ∧ (gen_add d s1 s2).1.b ≤ 200
     | .medium => (100 : ℚ) ≤ (gen_add d s1 s2).1.a ∧ (gen_add d s1 s2).1.a ≤ 900 ∧
         (100 : ℚ) ≤ (gen_add d s1 s2).1.b ∧ (gen_add d s1 s2).1.b ≤ 900
     | .hard => (1000 : ℚ) ≤ (gen_add d s1 s2).1.a ∧ (gen_add d s1 s2).1.a ≤ 9999 ∧
         (1000 : ℚ) ≤ (gen_add d s1 s2).1.b ∧ (gen_add d s1 s2).1.b ≤ 9999)) ∧
    ((gen_sub d s1 s2).2 = (gen_sub d s1 s2).1.exact ∧
    (match d with
     | .easy => (50 : ℚ) ≤ (gen_sub d s1 s2).1.a ∧ (gen_sub d s1 s2).1.a ≤ 300 ∧
         (10 : ℚ) ≤ (gen_sub d s1 s2).1.b ∧ (gen_sub d s1 s2).1.b ≤ 200
     | .medium => (500 : ℚ) ≤ (gen_sub d s1 s2).1.a ∧ (gen_sub d s1 s2).1.a ≤ 2000 ∧
         (200 : ℚ) ≤ (gen_sub d s1 s2).1.b ∧ (gen_sub d s1 s2).1.b ≤ 1500
     | .hard => (2000 : ℚ) ≤ (gen_sub d s1 s2).1.a ∧ (gen_sub d s1 s2).1.a ≤ 9999 ∧
         (500 : ℚ) ≤ (gen_sub d s1 s2).1.b ∧ (gen_sub d s1 s2).1.b ≤ 9000)) ∧
    ((gen_mul d s1 s2).2 = (gen_mul d s1 s2).1.exact ∧
    (match d with
     | .easy => (10 : ℚ) ≤ (gen_mul d s1 s2).1.a ∧ (gen_mul d s1 s2).1.a ≤ 80 ∧
         (2 : ℚ) ≤ (gen_mul d s1 s2).1.b ∧ (gen_mul d s1 s2).1.b ≤ 9
     | .medium => (20 : ℚ) ≤ (gen_mul d s1 s2).1.a ∧ (gen_mul d s1 s2).1.a ≤ 99 ∧
         (10 : ℚ) ≤ (gen_mul d s1 s2).1.b ∧ (gen_mul d s1 s2).1.b ≤ 99
     | .hard => (100 : ℚ) ≤ (gen_mul d s1 s2).1.a ∧ (gen_mul d s1 s2).1.a ≤ 999 ∧
         (10 : ℚ) ≤ (gen_mul d s1 s2).1.b ∧ (gen_mul d s1 s2).1.b ≤ 99)) ∧
    ((gen_square d s1 s2).2 = (gen_square d s1 s2).1.exact ∧
    (match d with
     | .easy => (5 : ℚ) ≤ (gen_square d s1 s2).1.a ∧ (gen_square d s1 s2).1.a ≤ 20
     | .medium => (20 : ℚ) ≤ (gen_square d s1 s2).1.a ∧ (gen_square d s1 s2).1.a ≤ 50
     | .hard => (40 : ℚ) ≤ (gen_square d s1 s2).1.a ∧ (gen_square d s1 s2).1.a ≤ 120)) ∧
    ((gen_cube d s1 s2).2 = (gen_cube d s1 s2).1.exact ∧
    (match d with
     | .easy => (2 : ℚ) ≤ (gen_cube d s1 s2).1.a ∧ (gen_cube d s1 s2).1.a ≤ 6
     | .medium => (5 : ℚ) ≤ (gen_cube d s1 s2).1.a ∧ (gen_cube d s1 s2).1.a ≤ 12
     | .hard => (8 : ℚ) ≤ (gen_cube d s1 s2).1.a ∧ (gen_cube d s1 s2).1.a ≤ 20)) ∧
    ((match d with
     | .easy => (gen_div d s1 s2).2 = (gen_div d s1 s2).1.exact
     | .medium => (gen_div d s1 s2).2 = round_to_difficulty ((gen_div d s1 s2).1.exact) d
     | .hard => (gen_div d s1 s2).2 = round_to_difficulty ((gen_div d s1 s2).1.exact) d) ∧
    (match d with
     | .easy => (gen_div d s1 s2).1.b ∈ [(2 : ℚ), 4, 5, 8] ∧
         (∃ k : ℤ, 2 ≤ k ∧ k ≤ 50 ∧ (gen_div d s1 s2).1.a = (gen_div d s1 s2).1.b * ((k : ℚ)))
     | .medium => (2 : ℚ) ≤ (gen_div d s1 s2).1.b ∧ (gen_div d s1 s2).1.b ≤ 40 ∧
         (50 : ℚ) ≤ (gen_div d s1 s2).1.a ∧ (gen_div d s1 s2).1.a ≤ 800
     | .hard => (3 : ℚ) ≤ (gen_div d s1 s2).1.b ∧ (gen_div d s1 s2).1.b ≤ 90 ∧
         (100 : ℚ) ≤ (gen_div d s1 s2).1.a ∧ (gen_div d s1 s2).1.a ≤ 4000)) ∧
    ((gen_decimal d s1 s2).2 = round_to_difficulty ((gen_decimal d s1 s2).1.exact) d ∧
    (match d with
     | .easy => (gen_decimal d s1 s2).1.a ∈ [(1/10 : ℚ), 2/10, 25/100, 5/10, 75/100] ∧
         (20 : ℚ) ≤ (gen_decimal d s1 s2).1.b ∧ (gen_decimal d s1 s2).1.b ≤ 500
     | .medium =>
         (gen_decimal d s1 s2).1.a ∈ [(1/10 : ℚ), 2/10, 25/100, 33/100, 5/10, 66/100, 75/100] ∧
         (50 : ℚ) ≤ (gen_decimal d s1 s2).1.b ∧ (gen_decimal d s1 s2).1.b ≤ 2000
     | .hard => (gen_decimal d s1 s2).1.a = pyRound (uniform (1/1000) (9/10) s1) 3 ∧
         (200 : ℚ) ≤ (gen_decimal d s1 s2).1.b ∧ (gen_decimal d s1 s2).1.b ≤ 20000)) :=
  ⟨gen_add_spec d s1 s2, gen_sub_spec d s1 s2, gen_mul_spec d s1 s2,
    gen_square_spec d s1 s2, gen_cube_spec d s1 s2, gen_div_spec d s1 s2,
    gen_decimal_spec d s1 s2⟩

theorem pyRound_eq_of (x : ℚ) (n : ℕ) (z : ℤ) (h : x * 10 ^ n = ((z : ℚ))) :
    pyRound x n = ((z : ℚ)) / 10 ^ n := by
  unfold pyRound
  rw [h, rnd2even_intCast]

theorem rnd2even_eq_of_half_even (n : ℤ) (x : α) (hx : x = ((n : α)) + 1/2)
    (he : n % 2 = 0) : rnd2even x = n := by
  have hf : ⌊x⌋ = n := by
    rw [Int.floor_eq_iff]
    constructor
    · rw [hx]; push_cast; linarith
    · rw [hx]; push_cast; linarith
  have hsub : x - ((⌊x⌋ : ℤ) : α) = 1/2 := by
    rw [hf, hx]; ring
  unfold rnd2even
  rw [hsub, hf]
  simp [he]

theorem gen_prob_coin (d : Difficulty) (t s1 s2 : ℕ) :
    gen_prob d (4 * t) s1 s2 =
      (.coin (randint 0 (randint 3 10 s1) s2) (randint 3 10 s1),
        pyRound ((1/2 : ℚ) ^ (randint 3 10 s1).toNat) 5) := by
  have hm : (4 * t) % 4 = 0 := Nat.mul_mod_right 4 t
  simp [gen_prob, pychoice, hm]

theorem randint_3_10 (s : ℕ) : randint 3 10 s = 3 + ((s % 8 : ℕ) : ℤ) := by
  unfold randint
  norm_num

/-- C2 (amended): the coin sub-mode of the probability generator names a
requested head count `k` in the prompt but returns
`round(0.5^n, 5)` — a value depending only on `n`, never on `k` (equal to
`0.5^n` itself only for `n ≤ 5`); in particular for `n = 4` the returned
answer is exactly `0.0625` for every `k` seed. -/
theorem C2_coin_probability (d d' : Difficulty) (t w s1 s2 s2' : ℕ) :
    (gen_prob d (4 * t) s1 s2).2 = (gen_prob d' (4 * t) s1 s2').2 ∧
    (gen_prob d (4 * t) s1 s2).1 =
      ProbQ.coin (randint 0 (randint 3 10 s1) s2) (randint 3 10 s1) ∧
    (gen_prob d (4 * t) s1 s2).2 = pyRound ((1/2 : ℚ) ^ (3 + s1 % 8)) 5 ∧
    (gen_prob d (4 * t) (8 * w + 1) s2).2 = 625/10000 := by
  have he : ∀ s : ℕ, (randint 3 10 s).toNat = 3 + s % 8 := by
    intro s
    rw [randint_3_10]
    omega
  refine ⟨?_, ?_, ?_, ?_⟩
  · rw [gen_prob_coin, gen_prob_coin]
  · rw [gen_prob_coin]
  · rw [gen_prob_coin, he s1]
  · rw [gen_prob_coin]
    have h4 : (randint 3 10 (8 * w + 1)).toNat = 4 := by
      rw [he]
      omega
    show pyRound ((1/2 : ℚ) ^ (randint 3 10 (8 * w + 1)).toNat) 5 = 625/10000
    rw [h4, pyRound_eq_of ((1/2 : ℚ) ^ 4) 5 6250 (by norm_num)]
    norm_num

/-- C2 counterexample: with n = 6 flips (mode seed 0, n-seed 3, k-seed 0)
the coin branch returns `round(0.5^6, 5) = 0.01562`, which is not `0.5^6 =
0.015625` — the claim that the returned answer is `0.5^n` fails for `n ≥ 6`. -/
theorem C2_coin_probability_counterexample :
    (gen_prob .easy 0 3 0).1 = ProbQ.coin 0 6 ∧
    (gen_prob .easy 0 3 0).2 = 1562/100000 ∧
    (1562/100000 : ℚ) ≠ (1/2 : ℚ) ^ (6 : ℕ) := by
  refine ⟨by decide, ?_, by norm_num⟩
  have h := gen_prob_coin .easy 0 3 0
  rw [show (4 * 0 : ℕ) = 0 from rfl] at h
  rw [h]
  show pyRound ((1/2 : ℚ) ^ (randint 3 10 3).toNat) 5 = 1562/100000
  rw [show (randint 3 10 3).toNat = 6 by decide]
  have hz : rnd2even ((1/2 : ℚ) ^ 6 * 10 ^ 5) = 1562 :=
    rnd2even_eq_of_half_even 1562 _ (by norm_num) (by norm_num)
  unfold pyRound
  rw [hz]
  norm_num

theorem gen_prob_cases (d : Difficulty) (m s1 s2 : ℕ) :
    gen_prob d m s1 s2 =
      (.coin (randint 0 (randint 3 10 s1) s2) (randint 3 10 s1),
        pyRound ((1/2 : ℚ) ^ (randint 3 10 s1).toNat) 5) ∨
    gen_prob d m s1 s2 =
      (.urn (randint 3 15 s1) (randint 3 15 s2),
        pyRound (((randint 3 15 s1 : ℤ) : ℚ) /
          (((randint 3 15 s1 : ℤ) : ℚ) + ((randint 3 15 s2 : ℤ) : ℚ))) 4) ∨
    gen_prob d m s1 s2 =
      (.interval (min (unif s1) (unif s2)) (max (unif s1) (unif s2)),
        pyRound (max (unif s1) (unif s2) - min (unif s1) (unif s2)) 4) ∨
    gen_prob d m s1 s2 =
      (.cond (randint 1 9 s1) (randint 1 9 s2),
        pyRound (((randint 1 9 s1 : ℤ) : ℚ) /
          (((randint 1 9 s1 : ℤ) : ℚ) + ((randint 1 9 s2 : ℤ) : ℚ))) 4) := by
  have hcases : m % 4 = 0 ∨ m % 4 = 1 ∨ m % 4 = 2 ∨ m % 4 = 3 := by omega
  rcases hcases with h | h | h | h
  · left; simp [gen_prob, pychoice, h]
  · right; left; simp [gen_prob, pychoice, h]
  · right; right; left; simp [gen_prob, pychoice, h]
  · right; right; right; simp [gen_prob, pychoice, h]

/-- C3 (amended): the probability generator ignores the difficulty argument
entirely (same prompt and answer for every difficulty); its coin sub-mode
answer is rounded to 5 decimal places, while the urn, interval and cond
sub-modes are rounded to 4 decimal places. -/
theorem C3_prob_rounding (d d' : Difficulty) (m s1 s2 : ℕ) :
    gen_prob d m s1 s2 = gen_prob d' m s1 s2 ∧
    (match (gen_prob d m s1 s2).1 with
     | ProbQ.coin _ _ => pyRound (gen_prob d m s1 s2).2 5 = (gen_prob d m s1 s2).2
     | _ => pyRound (gen_prob d m s1 s2).2 4 = (gen_prob d m s1 s2).2) := by
  refine ⟨rfl, ?_⟩
  rcases gen_prob_cases d m s1 s2 with h | h | h | h <;> rw [h] <;>
    exact pyRound_idem _ _

/-- C3 counterexample: the coin answer for n = 5 is `0.03125`, a value with
5 decimal digits: `round(0.03125, 4) = 0.0312 ≠ 0.03125`, so gen_prob
answers are not all rounded to exactly 4 decimal places. -/
theorem C3_prob_rounding_counterexample :
    (gen_prob .easy 0 2 0).1 = ProbQ.coin 0 5 ∧
    (gen_prob .easy 0 2 0).2 = 3125/100000 ∧
    pyRound ((3125 : ℚ)/100000) 4 ≠ 3125/100000 := by
  refine ⟨by decide, ?_, ?_⟩
  · have h := gen_prob_coin .easy 0 2 0
    rw [show (4 * 0 : ℕ) = 0 from rfl] at h
    rw [h]
    show pyRound ((1/2 : ℚ) ^ (randint 3 10 2).toNat) 5 = 3125/100000
    rw [show (randint 3 10 2).toNat = 5 by decide]
    rw [pyRound_eq_of ((1/2 : ℚ) ^ 5) 5 3125 (by norm_num)]
    norm_num
  · have hz : rnd2even ((3125 : ℚ)/100000 * 10 ^ 4) = 312 :=
      rnd2even_eq_of_half_even 312 _ (by norm_num) (by norm_num)
    unfold pyRound
    rw [hz]
    norm_num

/-- C9: in classic mode, a non-quit reply that fails numeric parsing prints
the invalid notice, leaves the score unchanged, and the loop continues with
the remaining questions; inserting such a reply anywhere in a session
changes only the feedback log, never the final score. -/
theorem C9_classic_invalid (d : Difficulty) (ts q1 q2 : ℕ) (pre post : List ClassicStep)
    (score : ℕ) :
    run_classic d (⟨ts, q1, q2, .invalid⟩ :: post) score =
      ((run_classic d post score).1, Feedback.invalid :: (run_classic d post score).2) ∧
    (run_classic d (pre ++ ⟨ts, q1, q2, .invalid⟩ :: post) score).1 =
      (run_classic d (pre ++ post) score).1 := by
  refine ⟨rfl, ?_⟩
  induction pre generalizing score with
  | nil => rfl
  | cons st rest ih =>
    rcases st with ⟨ts', q1', q2', u⟩
    cases u with
    | quit => rfl
    | invalid =>
      simp only [List.cons_append, run_classic]
      exact ih score
    | num v =>
      simp only [List.cons_append, run_classic]
      by_cases hc : |v - ((pychoice ARITH ts' gen_add) d q1' q2').2| < 1/1000000
      · rw [if_pos hc, if_pos hc]
        exact ih (score + 1)
      · rw [if_neg hc, if_neg hc]
        exact ih score

theorem eightyGo_timeup (d : Difficulty) (steps : ℕ → EightyStep) (m : ℕ)
    (hm : 480 < (steps m).elapsed) :
    ∀ (rem i score answered : ℕ), i ≤ m → m < i + rem →
      (∀ j, j < m → i ≤ j → ((steps j).elapsed ≤ 480 ∧ eighty_step_ok d (steps j) = true)) →
      (eightyGo d steps rem i score answered).denom = m ∧
      (eightyGo d steps rem i score answered).timeUp = true ∧
      (eightyGo d steps rem i score answered).answered = answered + (m - i) ∧
      (eightyGo d steps rem i score answered).err = false := by
  intro rem
  induction rem with
  | zero =>
    intro i score answered h1 h2 h3
    exact absurd h2 (by omega)
  | succ rem ih =>
    intro i score answered h1 h2 h3
    by_cases him : i = m
    · subst him
      simp only [eightyGo]
      rw [if_pos hm]
      exact ⟨rfl, rfl, by show answered = answered + (i - i); omega, rfl⟩
    · have hile : i < m := by omega
      have hok := h3 i hile (le_refl i)
      have hrec : ∀ j, j < m → i + 1 ≤ j →
          ((steps j).elapsed ≤ 480 ∧ eighty_step_ok d (steps j) = true) :=
        fun j hj hij => h3 j hj (by omega)
      simp only [eightyGo]
      rw [if_neg (by linarith [hok.1] : ¬ 480 < (steps i).elapsed)]
      have hokb := hok.2
      unfold eighty_step_ok at hokb
      cases hch : (steps i).choice with
      | quit =>
        rw [hch] at hokb
        exact absurd hokb (by simp)
      | pick c =>
        rw [hch] at hokb
        simp only [Bool.and_eq_true, decide_eq_true_eq] at hokb
        dsimp only
        rw [if_pos hokb]
        by_cases hsc :
            |(mcq_options (((pychoice ARITH (steps i).topicSeed gen_add) d (steps i).s1
                (steps i).s2).2) d (steps i).optSeeds (steps i).shuffleSeed).getD c.val 0 -
              ((pychoice ARITH (steps i).topicSeed gen_add) d (steps i).s1 (steps i).s2).2| <
              1/1000000000
        · rw [if_pos hsc]
          have h := ih (i + 1) (score + 1) (answered + 1) (by omega) (by omega) hrec
          exact ⟨h.1, h.2.1, by rw [h.2.2.1]; omega, h.2.2.2⟩
        · rw [if_neg hsc]
          have h := ih (i + 1) score (answered + 1) (by omega) (by omega) hrec
          exact ⟨h.1, h.2.1, by rw [h.2.2.1]; omega, h.2.2.2⟩

/-- C4 (amended): in the 80-in-8 drill, if every iteration before `m` runs
normally (deadline not yet passed, a valid option picked, no lookup error)
and the elapsed time first exceeds 480 s at the top of iteration `m`, the
drill stops issuing questions there and prints the time-up notice; the final
summary reports the score over `m` — the 1-based index of the iteration at
which time expired, which is one more than the `m - 1` questions actually
attempted — and not over 80. -/
theorem C4_eighty_timeup (d : Difficulty) (steps : ℕ → EightyStep) (m : ℕ)
    (hm1 : 1 ≤ m) (hm2 : m ≤ 80)
    (hok : ∀ j, j < m → 1 ≤ j →
      ((steps j).elapsed ≤ 480 ∧ eighty_step_ok d (steps j) = true))
    (htime : 480 < (steps m).elapsed) :
    (run_eighty d steps).timeUp = true ∧
    (run_eighty d steps).denom = m ∧
    (run_eighty d steps).answered = m - 1 ∧
    (run_eighty d steps).err = false := by
  have h := eightyGo_timeup d steps m htime 80 1 0 0 hm1 (by omega) hok
  refine ⟨h.2.1, h.1, ?_, h.2.2.2⟩
  show (eightyGo d steps 80 1 0 0).answered = m - 1
  rw [h.2.2.1]
  omega

/-- C4 witness: on the concrete script `exSteps` (clock jumps past 480 s at
the top of iteration 5, options `[40, 32, 33, 34]` with choice 1 before
that), the amended theorem applies with m = 5. -/
theorem C4_eighty_timeup_witness :
    (1 ≤ 5 ∧ 5 ≤ 80 ∧ 480 < (exSteps 5).elapsed) ∧
    (run_eighty .easy exSteps).timeUp = true ∧
    (run_eighty .easy exSteps).denom = 5 ∧
    (run_eighty .easy exSteps).answered = 4 := by
  have hok : ∀ j, j < 5 → 1 ≤ j →
      ((exSteps j).elapsed ≤ 480 ∧ eighty_step_ok .easy (exSteps j) = true) := by
    with_unfolding_all decide
  have h := C4_eighty_timeup .easy exSteps 5 (by norm_num) (by norm_num) hok
    (by with_unfolding_all decide)
  exact ⟨⟨by norm_num, by norm_num, by with_unfolding_all decide⟩, h.1, h.2.1, h.2.2.1⟩

/-- C4 counterexample: on the same script the time-up summary denominator is
5 while only 4 questions were actually attempted, so the claim that the
summary reports the score over the number of questions attempted is false. -/
theorem C4_eighty_timeup_counterexample :
    (run_eighty .easy exSteps).timeUp = true ∧
    (run_eighty .easy exSteps).answered = 4 ∧
    (run_eighty .easy exSteps).denom = 5 ∧
    (run_eighty .easy exSteps).denom ≠ (run_eighty .easy exSteps).answered := by
  refine ⟨?_, ?_, ?_, ?_⟩ <;> with_unfolding_all decide

/-- C8: in approximation mode a sqrt question carries the pair
`(math.sqrt(x), tol)` with `tol = 0.05/0.03/0.02` for easy/medium/hard and
the unrounded square root of an in-band operand; the reply is scored correct
exactly when `|u - true| ≤ tol` — a tolerance check, not the `1e-9` strict
match used for multiple choice (indeed `1e-9 < tol`). -/
theorem C8_sqrt_tolerance (d : Difficulty) (s : ℕ) (u : ℝ) (score : ℕ) :
    (gen_sqrt d s).2.1 = Real.sqrt (((gen_sqrt d s).1.x : ℤ) : ℝ) ∧
    (gen_sqrt d s).2.2 = (gen_sqrt d s).1.tol ∧
    (gen_sqrt d s).1.tol =
      (match d with | .easy => (5/100 : ℚ) | .medium => 3/100 | .hard => 2/100) ∧
    (match d with
     | .easy => (5 : ℤ) ≤ (gen_sqrt d s).1.x ∧ (gen_sqrt d s).1.x ≤ 200
     | .medium => (100 : ℤ) ≤ (gen_sqrt d s).1.x ∧ (gen_sqrt d s).1.x ≤ 500
     | .hard => (300 : ℤ) ≤ (gen_sqrt d s).1.x ∧ (gen_sqrt d s).1.x ≤ 2000) ∧
    (sqrt_score_update (gen_sqrt d s).2 u score = score + 1 ↔
      |u - Real.sqrt (((gen_sqrt d s).1.x : ℤ) : ℝ)| ≤ (((gen_sqrt d s).1.tol : ℚ) : ℝ)) ∧
    (1/1000000000 : ℚ) < (gen_sqrt d s).1.tol := by
  cases d
  case easy =>
    refine ⟨rfl, rfl, rfl, randint_mem 5 200 s (by norm_num), ?_,
      by show (1/1000000000 : ℚ) < _; norm_num [gen_sqrt]⟩
    simp only [gen_sqrt]
    unfold sqrt_score_update
    constructor
    · intro h
      by_cases hc : |u - Real.sqrt ((randint 5 200 s : ℤ) : ℝ)| ≤ (((5/100 : ℚ) : ℚ) : ℝ)
      · exact hc
      · rw [if_neg hc] at h
        omega
    · intro h
      rw [if_pos h]
  case medium =>
    refine ⟨rfl, rfl, rfl, randint_mem 100 500 s (by norm_num), ?_,
      by show (1/1000000000 : ℚ) < _; norm_num [gen_sqrt]⟩
    simp only [gen_sqrt]
    unfold sqrt_score_update
    constructor
    · intro h
      by_cases hc : |u - Real.sqrt ((randint 100 500 s : ℤ) : ℝ)| ≤ (((3/100 : ℚ) : ℚ) : ℝ)
      · exact hc
      · rw [if_neg hc] at h
        omega
    · intro h
      rw [if_pos h]
  case hard =>
    refine ⟨rfl, rfl, rfl, randint_mem 300 2000 s (by norm_num), ?_,
      by show (1/1000000000 : ℚ) < _; norm_num [gen_sqrt]⟩
    simp only [gen_sqrt]
    unfold sqrt_score_update
    constructor
    · intro h
      by_cases hc : |u - Real.sqrt ((randint 300 2000 s : ℤ) : ℝ)| ≤ (((2/100 : ℚ) : ℚ) : ℝ)
      · exact hc
      · rw [if_neg hc] at h
        omega
    · intro h
      rw [if_pos h]

theorem exp_upper_01815 : Real.exp (363/2000) < 6/5 := by
  have hb := @Real.exp_bound' (363/2000) (by norm_num) (by norm_num) 4 (by norm_num)
  have hf2 : Nat.factorial 2 = 2 := rfl
  have hf3 : Nat.factorial 3 = 6 := rfl
  have hf4 : Nat.factorial 4 = 24 := rfl
  rw [Finset.sum_range_succ, Finset.sum_range_succ, Finset.sum_range_succ,
    Finset.sum_range_one, hf2, hf3, hf4] at hb
  have hend : ((1 : ℝ)/Nat.factorial 0 + (363/2000) ^ 1 / Nat.factorial 1 +
      (363/2000) ^ 2 / 2 + (363/2000) ^ 3 / 6 + (363/2000) ^ 4 * (4 + 1) / (24 * 4) :
        ℝ) < 6/5 := by
    norm_num [Nat.factorial]
  calc Real.exp (363/2000) ≤ _ := hb
  _ < 6/5 := by
    push_cast at hend ⊢
    convert hend using 2 <;> norm_num

theorem exp_lower_01825 : (6/5 : ℝ) < Real.exp (73/400) := by
  have habs : |(73/400 : ℝ)| = 73/400 := abs_of_nonneg (by norm_num)
  have hb := @Real.exp_bound (73/400 : ℝ) (by rw [habs]; norm_num) 4 (by norm_num)
  rw [habs] at hb
  have hf2 : Nat.factorial 2 = 2 := rfl
  have hf3 : Nat.factorial 3 = 6 := rfl
  have hf4 : Nat.factorial 4 = 24 := rfl
  rw [Finset.sum_range_succ, Finset.sum_range_succ, Finset.sum_range_succ,
    Finset.sum_range_one, hf2, hf3, hf4] at hb
  have h2 := (abs_le.mp hb).1
  have hgoal : (6/5 : ℝ) <
      ((1 : ℝ)/Nat.factorial 0 + (73/400) ^ 1 / Nat.factorial 1 +
        (73/400) ^ 2 / 2 + (73/400) ^ 3 / 6) -
      (73/400) ^ 4 * ((4 : ℕ).succ / ((24 : ℝ) * 4)) := by
    norm_num [Nat.factorial]
  push_cast at h2 hgoal ⊢
  nlinarith [h2, hgoal]

theorem log_12_bounds :
    (363/2000 : ℝ) < Real.log (6/5) ∧ Real.log (6/5) < 73/400 := by
  constructor
  · rw [Real.lt_log_iff_exp_lt (by norm_num : (0 : ℝ) < 6/5)]
    exact exp_upper_01815
  · rw [Real.log_lt_iff_lt_exp (by norm_num : (0 : ℝ) < 6/5)]
    exact exp_lower_01825

theorem pyRound_log12 : pyRound (Real.log (1 + ((1/5 : ℚ) : ℝ))) 3 = (182 : ℝ)/1000 := by
  have hcast : (1 : ℝ) + ((1/5 : ℚ) : ℝ) = 6/5 := by
    push_cast
    norm_num
  rw [hcast]
  unfold pyRound
  have h182 : rnd2even (Real.log (6/5) * 10 ^ 3) = 182 := by
    apply rnd2even_eq_of_lt
    · have h := log_12_bounds.1
      push_cast
      nlinarith [h]
    · have h := log_12_bounds.2
      push_cast
      nlinarith [h]
  rw [h182]
  norm_num

theorem gen_ln_hard_x : (gen_ln .hard 387755).1.x = 1/5 := by
  show pyRound (uniform (1/100) (1/2) 387755) 3 = 1/5
  have hu : uniform (1/100) (1/2) 387755 = 19999995/100000000 := by
    unfold uniform unif
    norm_num
  rw [hu]
  unfold pyRound
  rw [rnd2even_eq_of_lt 200 _ (by norm_num) (by norm_num)]
  norm_num

theorem gen_ln_hard_val : (gen_ln .hard 387755).2 = 183/1000 := by
  have h : (gen_ln .hard 387755).2 = round_to_difficulty
      ((gen_ln .hard 387755).1.x - (gen_ln .hard 387755).1.x ^ 2 / 2 +
        (gen_ln .hard 387755).1.x ^ 3 / 3) .hard := rfl
  rw [h, gen_ln_hard_x, round_to_difficulty_eq]
  show pyRound ((1/5 : ℚ) - (1/5) ^ 2 / 2 + (1/5) ^ 3 / 3) 3 = 183/1000
  unfold pyRound
  rw [rnd2even_eq_of_lt 183 _ (by norm_num) (by norm_num)]
  norm_num

theorem logret_r_999999 : logret_r 999999 = 1/5 := by
  unfold logret_r
  have hu : uniform (-(1/5)) (1/5) 999999 = 1999996/10000000 := by
    unfold uniform unif
    norm_num
  rw [hu]
  unfold pyRound
  rw [rnd2even_eq_of_lt 200 _ (by norm_num) (by norm_num)]
  norm_num

theorem gen_logret_hard_val (s : ℕ) :
    (gen_logret .hard s).2 = pyRound (Real.log (1 + ((logret_r s : ℚ) : ℝ))) 3 := by
  have h : (gen_logret .hard s).2 =
      round_to_difficulty (Real.log (1 + ((logret_r s : ℚ) : ℝ))) .hard := rfl
  rw [h, round_to_difficulty_eq]
  rfl

/-- C7: at hard difficulty `gen_ln` returns the third-order Taylor value
`x - x²/2 + x³/3` rounded to 3 decimals (0.183 at x = 0.2), while
`gen_logret` returns the exact `log(1+r)` rounded to 3 decimals (0.182 at
r = 0.2) — the hard tier of `gen_ln` is the Taylor polynomial, not the exact
logarithm, and the two disagree at 0.2. -/
theorem C7_log_asymmetry :
    (∀ s : ℕ, (gen_ln .hard s).2 =
      pyRound ((gen_ln .hard s).1.x - (gen_ln .hard s).1.x ^ 2 / 2 +
        (gen_ln .hard s).1.x ^ 3 / 3) 3) ∧
    (gen_ln .hard 387755).1.x = 1/5 ∧
    (gen_ln .hard 387755).2 = 183/1000 ∧
    (∀ s : ℕ, (gen_logret .hard s).2 =
      pyRound (Real.log (1 + (((gen_logret .hard s).1.r : ℚ) : ℝ))) 3) ∧
    (gen_logret .hard 999999).1.r = 1/5 ∧
    (gen_logret .hard 999999).2 = (182 : ℝ)/1000 ∧
    (((gen_ln .hard 387755).2 : ℚ) : ℝ) ≠ (gen_logret .hard 999999).2 := by
  have hlr : (gen_logret .hard 999999).2 = (182 : ℝ)/1000 := by
    rw [gen_logret_hard_val 999999]
    show pyRound (Real.log (1 + ((logret_r 999999 : ℚ) : ℝ))) 3 = _
    rw [logret_r_999999]
    exact pyRound_log12
  refine ⟨?_, gen_ln_hard_x, gen_ln_hard_val, ?_, ?_, hlr, ?_⟩
  · intro s
    have h : (gen_ln .hard s).2 = round_to_difficulty
        ((gen_ln .hard s).1.x - (gen_ln .hard s).1.x ^ 2 / 2 +
          (gen_ln .hard s).1.x ^ 3 / 3) .hard := rfl
    rw [h, round_to_difficulty_eq]
    rfl
  · intro s
    exact gen_logret_hard_val s
  · exact logret_r_999999
  · rw [gen_ln_hard_val, hlr]
    push_cast
    norm_num

end MentalMaths
